import Mathlib

/-!
Verification of the disk-clearing / partition-selection policy engine of
`pyanaconda/storage/osinstall.py` (class `InstallerStorage`).

The device/tree model is the external "Device Graph" the code queries
(blivet); devices are embedded as plain records of the attributes the
policy code reads, and the tree as a list of such records.  All machine
functions (`should_clear`, `empty_device`, `clear_partitions`,
`get_free_space`, `_mark_protected_device`) are translated from the
source; external blivet operations that the source calls
(`get_dependent_devices`, `recursive_remove`, `initialize_disk`,
`remove_empty_extended_partitions`) are modelled from the spec's
interface description (spec section 6) as noted on each definition.
-/

namespace OSInstall

/-- Clear-mode enumeration, mirroring the CLEAR_PARTITIONS_* constants. -/
inductive ClearPartType where
  | NONE
  | LINUX
  | ALL
  | LIST
  | DEFAULT
deriving DecidableEq, Repr

/-- Format metadata of a device (`device.format`): the attributes read by the
policy code.  `type = none` models `format.type is None` (no recognized
format); `exists_` models `format.exists`; `free` is `format.free` when the
format has that attribute (`hasattr(format, "free")`), else `none`. -/
structure Fmt where
  type : Option String
  exists_ : Bool
  hidden : Bool
  linux_native : Bool
  free : Option Nat
deriving DecidableEq, Repr

/-- A device of the external Device Graph, as read by the policy code.
`is_partition` models `isinstance(device, PartitionDevice)`; `flag_lvm`,
`flag_raid`, `flag_swap` model `device.get_flag(parted.PARTITION_*)`;
`disks` is the name list of `device.disks`; `children` / `parents` are the
name lists of the graph edges. -/
structure Device where
  name : String
  is_disk : Bool
  is_partition : Bool
  partitioned : Bool
  exists_ : Bool
  protected_ : Bool
  fmt : Fmt
  disks : List String
  is_magic : Bool
  is_primary : Bool
  is_logical : Bool
  flag_lvm : Bool
  flag_raid : Bool
  flag_swap : Bool
  children : List String
  parents : List String
deriving DecidableEq, Repr

/-- The device tree (read-only query surface of the Device Graph). -/
structure DeviceTree where
  devices : List Device
deriving DecidableEq, Repr

/-- Lookup of a device by name (`devicetree.get_device_by_name`). -/
def get_device_by_name (t : DeviceTree) (nm : String) : Option Device :=
  t.devices.find? (fun d => d.name == nm)

/-- Parent names of the device with the given name. -/
def parents_of (t : DeviceTree) (nm : String) : List String :=
  match get_device_by_name t nm with
  | some d => d.parents
  | none => []

/-- Fueled transitive-parent traversal: returns the frontier followed by
all names reachable from it through parent links, up to `fuel` steps. -/
def ancestors_aux (t : DeviceTree) : Nat → List String → List String
  | 0, _ => []
  | fuel + 1, ns => ns ++ ancestors_aux t fuel (ns.flatMap (parents_of t))

/-- Transitive parent set of a device (its ancestors).  The fuel
`t.devices.length` covers every parent chain of an acyclic graph. -/
def ancestors (t : DeviceTree) (device : Device) : List String :=
  ancestors_aux t t.devices.length device.parents

/-- Modelled from the spec: `dependents_of(device) -> [Device]`, the
transitive descendants of a device (spec section 6); the source calls the
external `self.devicetree.get_dependent_devices(device)`.  A device `x`
depends on `device` exactly when `device` is among `x`'s ancestors. -/
def get_dependent_devices (t : DeviceTree) (device : Device) : List Device :=
  t.devices.filter (fun x => (ancestors t x).contains device.name)

/-- The ambient Clear Configuration (`StorageDiscoveryConfig`). -/
structure StorageDiscoveryConfig where
  clear_part_type : ClearPartType
  clear_part_disks : List String
  clear_part_devices : List String
  initialize_disks : Bool
  zero_mbr : Bool
  clear_non_existent : Bool
deriving DecidableEq, Repr

/-- Translation of `InstallerStorage.empty_device`: a partitioned device is
empty iff all its children are platform-reserved (`is_magic`) partitions;
an unpartitioned device is empty iff it carries no recognized format. -/
def empty_device (t : DeviceTree) (device : Device) : Bool :=
  if device.partitioned then
    (device.children.filterMap (get_device_by_name t)).all (fun p => p.is_magic)
  else
    device.fmt.type == none

/-- The disk-scope loop at the top of `should_clear`:
`for disk in device.disks: if clear_part_disks and disk.name not in
clear_part_disks: return False`.  True exactly when that loop returns
False. -/
def scope_reject (clear_part_disks : List String) (device : Device) : Bool :=
  device.disks.any (fun dn => !clear_part_disks.isEmpty && !clear_part_disks.contains dn)

/-- Body of `InstallerStorage.should_clear` after resolution of the keyword
overrides, with the two Device-Graph queries it makes (`empty_device` and
protection of `get_dependent_devices`) abstracted as the arguments `empt`
and `dep_prot`; both queries are pure, so passing their values is
equivalent to the source's in-place calls.  The chain of early
`return False` statements of the source becomes the chain of
`if _ then false` branches, in the source's order. -/
def should_clear_core (clear_non_existent initialize_disks : Bool)
    (cpt : ClearPartType) (cpd : List String) (cpdevs : List String)
    (device : Device) (empt : Bool) (dep_prot : Bool) : Bool :=
  if scope_reject cpd device then false
  else if !clear_non_existent &&
          ((device.is_disk && !device.fmt.exists_) ||
           (!device.is_disk && !device.exists_)) then false
  else if (cpt == ClearPartType.NONE || cpt == ClearPartType.DEFAULT) &&
          (!initialize_disks || !device.is_disk) then false
  else if (cpt == ClearPartType.NONE || cpt == ClearPartType.DEFAULT) &&
          !empt then false
  else
    let tail : Bool :=
      if device.protected_ || dep_prot then false
      else if cpt == ClearPartType.LIST && !cpdevs.contains device.name then false
      else true
    if device.is_partition then
      if device.is_magic then false
      else if !device.is_primary && !device.is_logical then false
      else if cpt == ClearPartType.LINUX &&
              !device.fmt.linux_native && !device.flag_lvm &&
              !device.flag_raid && !device.flag_swap then false
      else tail
    else if device.is_disk then
      if device.partitioned && cpt != ClearPartType.ALL && !empt then false
      else if device.fmt.hidden then false
      else if cpt == ClearPartType.LINUX &&
              !((initialize_disks && empt) ||
                (!device.partitioned && device.fmt.linux_native)) then false
      else tail
    else tail

/-- Translation of `InstallerStorage.should_clear(device, **kwargs)`; the
three optional arguments are the keyword overrides `clear_part_type`,
`clear_part_disks` and `clear_part_devices`, defaulting to the ambient
configuration exactly as in the source. -/
def should_clear_kw (t : DeviceTree) (cfg : StorageDiscoveryConfig) (device : Device)
    (kw_type : Option ClearPartType) (kw_disks : Option (List String))
    (kw_devices : Option (List String)) : Bool :=
  should_clear_core cfg.clear_non_existent cfg.initialize_disks
    (kw_type.getD cfg.clear_part_type)
    (kw_disks.getD cfg.clear_part_disks)
    (kw_devices.getD cfg.clear_part_devices)
    device (empty_device t device)
    ((get_dependent_devices t device).any (fun d => d.protected_))

/-- The `should_clear` call with no keyword overrides. -/
def should_clear (t : DeviceTree) (cfg : StorageDiscoveryConfig) (device : Device) : Bool :=
  should_clear_kw t cfg device none none none

/-!
Structured installer state for `clear_partitions` and `get_free_space`:
disks carrying partitions, the shape of the Device Graph those two
methods traverse (`self.disks`, `self.partitions`, `partition.disk`).
-/

/-- A partition device (blivet `PartitionDevice`): the attributes the
policy and orchestrator code reads.  `number` is
`parted_partition.number`. -/
structure Part where
  name : String
  number : Nat
  exists_ : Bool
  protected_ : Bool
  is_magic : Bool
  is_primary : Bool
  is_logical : Bool
  is_extended : Bool
  flag_lvm : Bool
  flag_raid : Bool
  flag_swap : Bool
  fmt : Fmt
  size : Nat
deriving DecidableEq, Repr

/-- A whole-disk device together with its partitions. -/
structure Disk where
  name : String
  protected_ : Bool
  fmt : Fmt
  size : Nat
  parts : List Part
deriving DecidableEq, Repr

/-- Whether the disk is partitioned: in blivet a disk is partitioned
exactly when it carries a disklabel format. -/
def Disk.partitioned (d : Disk) : Bool :=
  d.fmt.type == some "disklabel"

/-- The installer state: the device inventory as a list of disks. -/
structure State where
  disks : List Disk
deriving DecidableEq, Repr

/-- View of a partition as a Device Graph entry.  A partition's `disks`
list is the singleton of its containing disk, its only parent is that
disk, and `scheduled` existence is the device's own `exists` flag. -/
def Part.toDevice (diskName : String) (p : Part) : Device :=
  { name := p.name
    is_disk := false
    is_partition := true
    partitioned := false
    exists_ := p.exists_
    protected_ := p.protected_
    fmt := p.fmt
    disks := [diskName]
    is_magic := p.is_magic
    is_primary := p.is_primary
    is_logical := p.is_logical
    flag_lvm := p.flag_lvm
    flag_raid := p.flag_raid
    flag_swap := p.flag_swap
    children := []
    parents := [diskName] }

/-- View of a disk as a Device Graph entry.  A disk's `disks` list is the
singleton of itself, its children are its partitions, and a scanned disk
itself exists (its format's existence is tracked separately). -/
def Disk.toDevice (d : Disk) : Device :=
  { name := d.name
    is_disk := true
    is_partition := false
    partitioned := d.partitioned
    exists_ := true
    protected_ := d.protected_
    fmt := d.fmt
    disks := [d.name]
    is_magic := false
    is_primary := false
    is_logical := false
    flag_lvm := false
    flag_raid := false
    flag_swap := false
    children := d.parts.map (fun p => p.name)
    parents := [] }

/-- The device tree presented by a structured state. -/
def treeOf (s : State) : DeviceTree :=
  ⟨s.disks.map Disk.toDevice ++
    s.disks.flatMap (fun d => d.parts.map (Part.toDevice d.name))⟩

/-- All (disk name, partition) pairs of the state: `self.partitions`
together with each partition's containing disk. -/
def partPairs (s : State) : List (String × Part) :=
  s.disks.flatMap (fun d => d.parts.map (fun p => (d.name, p)))

/-- The fresh, not-yet-committed disklabel format created by
`initialize_disk`: a disklabel whose on-disk realization does not exist
yet. -/
def freshLabel : Fmt :=
  { type := some "disklabel", exists_ := false, hidden := false,
    linux_native := false, free := none }

/-- Modelled from the spec: the device-removal part of
`self.recursive_remove(part)` (spec section 6, `remove(device)`): the
partition is detached from the graph; in this flat disk/partition state a
partition has no dependents to cascade to. -/
def removePartByName (s : State) (nm : String) : State :=
  ⟨s.disks.map (fun d => { d with parts := d.parts.filter (fun p => !(p.name == nm)) })⟩

/-- Modelled from the spec: `self.recursive_remove(disk)` on a whole disk
detaches everything depending on the disk — its partitions — while the
disk itself stays in the graph (spec section 4.2 step 3: "remove any
remaining children of the disk"). -/
def remove_disk_children (s : State) (nm : String) : State :=
  ⟨s.disks.map (fun d => if d.name == nm then { d with parts := [] } else d)⟩

/-- Modelled from the spec: `self.initialize_disk(disk)` marks the disk
for fresh disklabel initialization (spec section 4.2 step 3), replacing
its format with a scheduled, not-yet-existing disklabel. -/
def initialize_disk (s : State) (nm : String) : State :=
  ⟨s.disks.map (fun d => if d.name == nm then { d with fmt := freshLabel } else d)⟩

/-- Modelled from the spec: `self.remove_empty_extended_partitions()`
(spec section 4.2 step 2): remove any extended-partition container with
zero remaining logical children on its disk. -/
def remove_empty_extended_partitions (s : State) : State :=
  ⟨s.disks.map (fun d =>
    { d with parts := d.parts.filter (fun p =>
        !(p.is_extended && d.parts.all (fun q => !q.is_logical))) })⟩

/-- The partition pass of `clear_partitions`: partitions sorted by
descending partition number; each one still subject to the policy is
removed together with its dependents. -/
def partition_pass (cfg : StorageDiscoveryConfig) (s : State) : State :=
  (List.mergeSort (partPairs s) (fun a b => Nat.ble b.2.number a.2.number)).foldl
    (fun st pr =>
      if should_clear (treeOf st) cfg (Part.toDevice pr.1 pr.2) then
        removePartByName st pr.2.name
      else st) s

/-- One iteration of the disk loop of `clear_partitions`: handle `zerombr`
and whole-disk clearing for the disk of the given name. -/
def disk_step (cfg : StorageDiscoveryConfig) (s : State) (nm : String) : State :=
  match s.disks.find? (fun d => d.name == nm) with
  | none => s
  | some disk =>
    let zerombr := cfg.zero_mbr && disk.fmt.type == none
    let sc := should_clear (treeOf s) cfg (Disk.toDevice disk)
    let s1 := if sc then remove_disk_children s nm else s
    if zerombr || sc then
      if disk.protected_ then s1 else initialize_disk s1 nm
    else s1

/-- Translation of `InstallerStorage.clear_partitions`: the partition
pass, removal of empty extended partitions, then the disk loop (the final
`update_bootloader_disk_list()` does not touch the device graph). -/
def clear_partitions (cfg : StorageDiscoveryConfig) (s : State) : State :=
  let s1 := partition_pass cfg s
  let s2 := remove_empty_extended_partitions s1
  (s2.disks.map (fun d => d.name)).foldl (disk_step cfg) s2

/-- One step of the per-partition loop of `get_free_space`: a partition
that would be cleared contributes its full size to `disk_free`; otherwise,
if its format supports shrinking (`hasattr(partition.format, "free")`),
its shrinkable amount is added to `fs_free`. -/
def free_entry_step (t : DeviceTree) (cfg : StorageDiscoveryConfig)
    (cpt : ClearPartType) (diskName : String) (acc : Nat × Nat)
    (pr : String × Part) : Nat × Nat :=
  if should_clear_kw t cfg (Part.toDevice pr.1 pr.2)
      (some cpt) (some [diskName]) none then
    (acc.1 + pr.2.size, acc.2)
  else match pr.2.fmt.free with
    | some v => (acc.1, acc.2 + v)
    | none => acc

/-- The `(disk_free, fs_free)` pair computed by one iteration of the disk
loop of `get_free_space`.  For a partitioned disk `disk_free` starts from
the disklabel's unallocated space (`disk.format.free`, always present on a
disklabel format) and the partitions of that disk are folded with
`free_entry_step`. -/
def free_entry (s : State) (cfg : StorageDiscoveryConfig)
    (cpt : ClearPartType) (disk : Disk) : Nat × Nat :=
  if should_clear_kw (treeOf s) cfg (Disk.toDevice disk)
      (some cpt) (some [disk.name]) none then
    (disk.size, 0)
  else if disk.partitioned then
    ((partPairs s).filter (fun pr => pr.1 == disk.name)).foldl
      (free_entry_step (treeOf s) cfg cpt disk.name) ((disk.fmt.free).getD 0, 0)
  else match disk.fmt.free with
    | some v => (0, v)
    | none => if disk.fmt.type == none then (disk.size, 0) else (0, 0)

/-- Translation of `InstallerStorage.get_free_space`: per candidate disk
the pair `(disk_free, fs_free)`, keyed by disk name.  Every policy query
overrides `clear_part_disks` with the single disk under evaluation and
`clear_part_type` with the resolved mode, exactly as in the source. -/
def get_free_space (s : State) (cfg : StorageDiscoveryConfig)
    (disksArg : Option (List Disk)) (cptArg : Option ClearPartType) :
    List (String × Nat × Nat) :=
  (disksArg.getD s.disks).map (fun disk =>
    (disk.name, free_entry s cfg (cptArg.getD cfg.clear_part_type) disk))

/-- Mark-protected state update: `device.protected = True` on the device
of the given name. -/
def set_protected (t : DeviceTree) (nm : String) : DeviceTree :=
  ⟨t.devices.map (fun d => if d.name == nm then { d with protected_ := true } else d)⟩

/-- Translation of `InstallerStorage._mark_protected_device`: if the
device's name is among the protected device names it is marked protected,
and if it is the live backing device its (direct) parents are marked
protected as well. -/
def mark_protected_device (protected_dev_names : List String)
    (live_backing_device : Option String) (t : DeviceTree) (device : Device) :
    DeviceTree :=
  if protected_dev_names.contains device.name then
    let t1 := set_protected t device.name
    if live_backing_device == some device.name then
      device.parents.foldl set_protected t1
    else t1
  else t

/-!
Local (tree-free) forms of the policy and a per-disk form of the
clearing pipeline.  In a flat disk/partition state the two Device-Graph
queries of `should_clear` depend only on the queried device's own disk:
the theorems below prove the tree-based functions equal to these local
forms, which the idempotence argument then analyses disk by disk.
-/

/-- The `empty_device` value of a disk in a flat state: all child
partitions platform-reserved when partitioned, no recognized format
otherwise. -/
def diskEmpty (d : Disk) : Bool :=
  if d.partitioned then d.parts.all (fun p => p.is_magic)
  else d.fmt.type == none

/-- Tree-free form of `should_clear` (no overrides) on a partition of the
disk named `dn`: a partition is never `partitioned` and, in a flat state,
has no dependents. -/
def shouldClearPartF (cfg : StorageDiscoveryConfig) (dn : String) (p : Part) : Bool :=
  should_clear_core cfg.clear_non_existent cfg.initialize_disks
    cfg.clear_part_type cfg.clear_part_disks cfg.clear_part_devices
    (Part.toDevice dn p) (p.fmt.type == none) false

/-- Tree-free form of `should_clear` (no overrides) on a whole disk: in a
flat state the dependents of a disk are exactly its partitions. -/
def shouldClearDiskF (cfg : StorageDiscoveryConfig) (d : Disk) : Bool :=
  should_clear_core cfg.clear_non_existent cfg.initialize_disks
    cfg.clear_part_type cfg.clear_part_disks cfg.clear_part_devices
    d.toDevice (diskEmpty d) (d.parts.any (fun p => p.protected_))

/-- Per-disk effect of the partition pass: the partitions approved by the
policy are removed. -/
def partFilterF (cfg : StorageDiscoveryConfig) (d : Disk) : Disk :=
  { d with parts := d.parts.filter (fun p => !shouldClearPartF cfg d.name p) }

/-- Per-disk effect of `remove_empty_extended_partitions`. -/
def removeEmptyExtF (d : Disk) : Disk :=
  { d with parts := d.parts.filter (fun p =>
      !(p.is_extended && d.parts.all (fun q => !q.is_logical))) }

/-- Per-disk effect of one iteration of the disk loop of
`clear_partitions`. -/
def diskStepF (cfg : StorageDiscoveryConfig) (d : Disk) : Disk :=
  let zerombr := cfg.zero_mbr && d.fmt.type == none
  let sc := shouldClearDiskF cfg d
  let d1 := if sc then { d with parts := [] } else d
  if zerombr || sc then
    if d.protected_ then d1 else { d1 with fmt := freshLabel }
  else d1

/-- Per-disk effect of a whole `clear_partitions` run. -/
def clearDiskF (cfg : StorageDiscoveryConfig) (d : Disk) : Disk :=
  diskStepF cfg (removeEmptyExtF (partFilterF cfg d))

/-- Well-formedness of a structured state: all device names (disks and
partitions together) are distinct, and a hidden format carries a format
type — every hidden blivet format (multipath member, firmware-RAID
member) has a non-None `format.type`. -/
def WF (s : State) : Prop :=
  ((treeOf s).devices.map (fun d => d.name)).Nodup ∧
  ∀ d ∈ s.disks, d.fmt.hidden = true → d.fmt.type ≠ none

/-- A state transformed disk by disk. -/
def stateMap (f : Disk → Disk) (s : State) : State :=
  ⟨s.disks.map f⟩

/-- One step of the partition pass with the tree-free policy form. -/
def partStepLocal (cfg : StorageDiscoveryConfig) (st : State)
    (pr : String × Part) : State :=
  if shouldClearPartF cfg pr.1 pr.2 then removePartByName st pr.2.name else st

/-- Names of the partitions a pair list would clear. -/
def clearedNames (cfg : StorageDiscoveryConfig) (l : List (String × Part)) :
    List String :=
  (l.filter (fun pr => shouldClearPartF cfg pr.1 pr.2)).map (fun pr => pr.2.name)

/-- Removal, on one disk, of all partitions carrying one of the given
names. -/
def dropPartsNamed (ns : List String) (d : Disk) : Disk :=
  { d with parts := d.parts.filter (fun p => !(ns.contains p.name)) }

/-!
Concrete fixtures used by scenario claims, witnesses and counterexamples.
-/

/-- No recognized format on an existing device. -/
def fmtNone : Fmt :=
  { type := none, exists_ := true, hidden := false, linux_native := false, free := none }

/-- An existing disklabel with 100 units of unallocated space. -/
def fmtLabel : Fmt :=
  { type := some "disklabel", exists_ := true, hidden := false, linux_native := false,
    free := some 100 }

/-- An existing Linux-native filesystem with 10 units of shrinkable space. -/
def fmtExt4 : Fmt :=
  { type := some "ext4", exists_ := true, hidden := false, linux_native := true,
    free := some 10 }

/-- An existing swap format. -/
def fmtSwap : Fmt :=
  { type := some "swap", exists_ := true, hidden := false, linux_native := true, free := none }

/-- Baseline configuration: given mode, empty scope lists, all flags off. -/
def cfgBase (cpt : ClearPartType) : StorageDiscoveryConfig :=
  { clear_part_type := cpt, clear_part_disks := [], clear_part_devices := [],
    initialize_disks := false, zero_mbr := false, clear_non_existent := false }

/-- Existing primary Linux-native partition `sda1`. -/
def sda1 : Part :=
  { name := "sda1", number := 1, exists_ := true, protected_ := false,
    is_magic := false, is_primary := true, is_logical := false, is_extended := false,
    flag_lvm := false, flag_raid := false, flag_swap := false, fmt := fmtExt4, size := 50 }

/-- Existing primary swap partition `sda2` (swap role flag set). -/
def sda2 : Part :=
  { sda1 with name := "sda2", number := 2, fmt := fmtSwap, flag_swap := true }

/-- Disk `sda` partitioned with `sda1` and `sda2`. -/
def sda : Disk :=
  { name := "sda", protected_ := false, fmt := fmtLabel, size := 200, parts := [sda1, sda2] }

/-- State holding only disk `sda`. -/
def sSda : State := ⟨[sda]⟩

/-- Disk `sdb`: fully unpartitioned, no format. -/
def sdb : Disk := { name := "sdb", protected_ := false, fmt := fmtNone, size := 500, parts := [] }

/-- State holding only disk `sdb`. -/
def sSdb : State := ⟨[sdb]⟩

/-- Protected existing partition `sdc1`. -/
def sdc1 : Part := { sda1 with name := "sdc1", protected_ := true }

/-- Disk `sdc` holding the protected partition `sdc1`. -/
def sdc : Disk := { name := "sdc", protected_ := false, fmt := fmtLabel, size := 200, parts := [sdc1] }

/-- State holding only disk `sdc`. -/
def sSdc : State := ⟨[sdc]⟩

/-- A device associated with two disks (such as an LVM logical volume
whose volume group spans two physical volumes). -/
def devSpan : Device :=
  { name := "lv0", is_disk := false, is_partition := false, partitioned := false,
    exists_ := true, protected_ := false, fmt := fmtExt4, disks := ["a", "b"],
    is_magic := false, is_primary := false, is_logical := false,
    flag_lvm := false, flag_raid := false, flag_swap := false,
    children := [], parents := [] }

/-- A device backing the live installation medium, sitting on a RAID
array that in turn sits on a physical disk. -/
def liveDev : Device :=
  { name := "live0", is_disk := false, is_partition := false, partitioned := false,
    exists_ := true, protected_ := false, fmt := fmtExt4, disks := ["sdx"],
    is_magic := false, is_primary := false, is_logical := false,
    flag_lvm := false, flag_raid := false, flag_swap := false,
    children := [], parents := ["md0"] }

/-- The RAID array between the live device and the disk. -/
def midDev : Device :=
  { liveDev with name := "md0", parents := ["sdx"], children := ["live0"] }

/-- The physical disk at the bottom of the chain: a transitive ancestor of
the live device but not a direct parent. -/
def gpDev : Device :=
  { liveDev with name := "sdx", is_disk := true, parents := [], children := ["md0"] }

/-- Tree of the three-level chain backing the live medium. -/
def tLive : DeviceTree := ⟨[liveDev, midDev, gpDev]⟩

/-- Mode ALL with `clear_non_existent` set: scheduled devices are also
clearing targets. -/
def cfgCne : StorageDiscoveryConfig :=
  { cfgBase ClearPartType.ALL with clear_non_existent := true }

/-- A single partitioned disk holding one existing Linux partition. -/
def sCne : State :=
  ⟨[{ name := "sda", protected_ := false, fmt := fmtLabel, size := 200,
      parts := [sda1] }]⟩

/-!
Claim C1 — protection invariant.
-/

set_option maxHeartbeats 1000000 in
/-- Helper: the policy body returns `false` whenever the protection test
(device protected, or some dependent protected) fires. -/
theorem should_clear_core_protected (cne init : Bool)
    (cpt : ClearPartType) (cpd cpdevs : List String) (device : Device)
    (empt dep_prot : Bool)
    (hp : (device.protected_ || dep_prot) = true) :
    should_clear_core cne init cpt cpd cpdevs device empt dep_prot = false := by
  unfold should_clear_core
  simp only [hp]
  split_ifs <;> rfl

/-- C1: for every device and every configuration (ambient configuration
and any keyword overrides), `should_clear` returns `false` whenever the
device is protected or some device depending on it is protected. -/
theorem should_clear_protection_invariant (t : DeviceTree)
    (cfg : StorageDiscoveryConfig) (device : Device)
    (kt : Option ClearPartType) (kd kv : Option (List String))
    (h : device.protected_ = true ∨
      ∃ x ∈ get_dependent_devices t device, x.protected_ = true) :
    should_clear_kw t cfg device kt kd kv = false := by
  have hp : (device.protected_ ||
      (get_dependent_devices t device).any (fun d => d.protected_)) = true := by
    rcases h with h | ⟨x, hx, hxp⟩
    · simp [h]
    · simp only [Bool.or_eq_true, List.any_eq_true]
      exact Or.inr ⟨x, hx, hxp⟩
  exact should_clear_core_protected _ _ _ _ _ device _ _ hp

/-- Witness for C1 at the `sdc` fixture: the protected partition `sdc1` is
not cleared even under mode ALL. -/
theorem should_clear_protection_invariant_witness :
    should_clear_kw (treeOf sSdc) (cfgBase ClearPartType.ALL)
      (Part.toDevice "sdc" sdc1) none none none = false :=
  should_clear_protection_invariant (treeOf sSdc) (cfgBase ClearPartType.ALL)
    (Part.toDevice "sdc" sdc1) none none none (Or.inl (by decide))

/-!
Claim C2 — the disk-scope filter.
-/

/-- Helper: a sequential `return False` guard — if the branch is taken the
result is `false`, so a `true` result means the guard did not fire. -/
theorem guard_false_elim {c : Prop} [Decidable c] {x : Bool}
    (h : (if c then false else x) = true) : ¬c ∧ x = true := by
  by_cases hc : c
  · rw [if_pos hc] at h
    exact absurd h (by simp)
  · rw [if_neg hc] at h
    exact ⟨hc, h⟩

/-- C2 counterexample: a device with associated disks `a` and `b` under
`clear_part_disks = [a]` has at least one associated disk in the set, yet
the disk-scope step rejects it (and `should_clear` returns false), contrary
to the claim that the step rejects exactly when no associated disk is in
the set. -/
theorem disk_scope_claim_counterexample :
    "a" ∈ devSpan.disks ∧ "a" ∈ (["a"] : List String) ∧
    scope_reject ["a"] devSpan = true ∧
    should_clear_kw ⟨[devSpan]⟩
      { cfgBase ClearPartType.ALL with clear_part_disks := ["a"] }
      devSpan none none none = false := by
  decide

/-- C2 amended: when `clear_part_disks` is non-empty the disk-scope step
rejects a device exactly when at least one of its associated disks is
missing from the set (equivalently, it passes only when all associated
disks are listed); a rejected device is never cleared. -/
theorem disk_scope_filter_characterization :
    (∀ (cpd : List String) (device : Device),
      scope_reject cpd device = true ↔
        (cpd ≠ [] ∧ ∃ dn ∈ device.disks, dn ∉ cpd)) ∧
    (∀ (t : DeviceTree) (cfg : StorageDiscoveryConfig) (device : Device)
        (kt : Option ClearPartType) (kd kv : Option (List String)),
      scope_reject (kd.getD cfg.clear_part_disks) device = true →
      should_clear_kw t cfg device kt kd kv = false) := by
  constructor
  · intro cpd device
    unfold scope_reject
    constructor
    · intro h
      obtain ⟨dn, hdn, hb⟩ := List.any_eq_true.mp h
      rw [Bool.and_eq_true] at hb
      refine ⟨by simpa using hb.1, dn, hdn, by simpa using hb.2⟩
    · rintro ⟨h1, dn, hdn, h2⟩
      exact List.any_eq_true.mpr ⟨dn, hdn, by simp [h1, h2]⟩
  · intro t cfg device kt kd kv h
    unfold should_clear_kw should_clear_core
    rw [if_pos h]

/-- Witness for the amended C2 at the `devSpan` fixture. -/
theorem disk_scope_filter_characterization_witness :
    (scope_reject ["a"] devSpan = true ↔
      ((["a"] : List String) ≠ [] ∧ ∃ dn ∈ devSpan.disks, dn ∉ (["a"] : List String))) ∧
    should_clear_kw ⟨[devSpan]⟩ (cfgBase ClearPartType.ALL) devSpan
      none (some ["a"]) none = false :=
  ⟨disk_scope_filter_characterization.1 ["a"] devSpan,
    disk_scope_filter_characterization.2 ⟨[devSpan]⟩ (cfgBase ClearPartType.ALL)
      devSpan none (some ["a"]) none (by decide)⟩

/-!
Claim C3 — mode NONE/DEFAULT restriction.
-/

/-- Helper: under mode NONE or DEFAULT the policy body can return `true`
only for a whole disk, with `initialize_disks` set, and an empty device. -/
theorem should_clear_core_nd (cne init : Bool) (cpt : ClearPartType)
    (cpd cpdevs : List String) (device : Device) (empt dep_prot : Bool)
    (hm : cpt = ClearPartType.NONE ∨ cpt = ClearPartType.DEFAULT)
    (h : should_clear_core cne init cpt cpd cpdevs device empt dep_prot = true) :
    device.is_disk = true ∧ init = true ∧ empt = true := by
  have hm' : (cpt == ClearPartType.NONE || cpt == ClearPartType.DEFAULT) = true := by
    rcases hm with h' | h' <;> simp [h']
  unfold should_clear_core at h
  obtain ⟨-, h⟩ := guard_false_elim h
  obtain ⟨-, h⟩ := guard_false_elim h
  obtain ⟨h3, h⟩ := guard_false_elim h
  obtain ⟨h4, -⟩ := guard_false_elim h
  rw [hm'] at h3 h4
  simp only [Bool.true_and, Bool.not_eq_true, Bool.or_eq_false_iff] at h3 h4
  exact ⟨by simpa using h3.2, by simpa using h3.1, by simpa using h4⟩

/-- C3: under clear mode NONE or DEFAULT, `should_clear` returns true only
for a whole disk when `initialize_disks` is set and the disk is empty;
concretely, unpartitioned format-less disk `sdb` under DEFAULT is cleared
exactly when `initialize_disks` is set. -/
theorem clear_none_default_restriction :
    (∀ (t : DeviceTree) (cfg : StorageDiscoveryConfig) (device : Device),
      (cfg.clear_part_type = ClearPartType.NONE ∨
        cfg.clear_part_type = ClearPartType.DEFAULT) →
      should_clear t cfg device = true →
      device.is_disk = true ∧ cfg.initialize_disks = true ∧
        empty_device t device = true) ∧
    should_clear (treeOf sSdb)
      { cfgBase ClearPartType.DEFAULT with initialize_disks := true }
      sdb.toDevice = true ∧
    should_clear (treeOf sSdb) (cfgBase ClearPartType.DEFAULT) sdb.toDevice = false := by
  refine ⟨?_, by decide, by decide⟩
  intro t cfg device hm h
  exact should_clear_core_nd _ _ _ _ _ _ _ _ hm h

/-- Witness for C3 at the `sdb` fixture. -/
theorem clear_none_default_restriction_witness :
    sdb.toDevice.is_disk = true ∧
    ({ cfgBase ClearPartType.DEFAULT with initialize_disks := true } :
      StorageDiscoveryConfig).initialize_disks = true ∧
    empty_device (treeOf sSdb) sdb.toDevice = true :=
  clear_none_default_restriction.1 (treeOf sSdb)
    { cfgBase ClearPartType.DEFAULT with initialize_disks := true }
    sdb.toDevice (Or.inr rfl) (by decide)

/-!
Claim C4 — mode LINUX partition exclusion.
-/

/-- Helper: under mode LINUX the policy body can return `true` for a
partition only when it is Linux-native or carries an LVM, RAID or swap
role flag. -/
theorem should_clear_core_linux_part (cne init : Bool)
    (cpd cpdevs : List String) (device : Device) (empt dep_prot : Bool)
    (hp : device.is_partition = true)
    (h : should_clear_core cne init ClearPartType.LINUX cpd cpdevs device
      empt dep_prot = true) :
    device.fmt.linux_native = true ∨ device.flag_lvm = true ∨
      device.flag_raid = true ∨ device.flag_swap = true := by
  unfold should_clear_core at h
  obtain ⟨-, h⟩ := guard_false_elim h
  obtain ⟨-, h⟩ := guard_false_elim h
  obtain ⟨-, h⟩ := guard_false_elim h
  obtain ⟨-, h⟩ := guard_false_elim h
  simp only [hp, if_true] at h
  obtain ⟨-, h⟩ := guard_false_elim h
  obtain ⟨-, h⟩ := guard_false_elim h
  obtain ⟨hl, -⟩ := guard_false_elim h
  simp only [Bool.not_eq_true, Bool.and_eq_false_iff] at hl
  simpa [or_assoc] using hl

/-- C4: under mode LINUX, an existing, unprotected, non-magic primary or
logical partition is cleared only if it is Linux-native or carries an LVM,
RAID or swap role flag; concretely on disk `sda`, Linux-native `sda1` and
swap `sda2` are cleared while `sda` itself is not. -/
theorem clear_linux_partition_exclusion :
    (∀ (t : DeviceTree) (cfg : StorageDiscoveryConfig) (device : Device),
      cfg.clear_part_type = ClearPartType.LINUX →
      device.is_partition = true →
      device.exists_ = true →
      device.protected_ = false →
      device.is_magic = false →
      (device.is_primary = true ∨ device.is_logical = true) →
      should_clear t cfg device = true →
      (device.fmt.linux_native = true ∨ device.flag_lvm = true ∨
        device.flag_raid = true ∨ device.flag_swap = true)) ∧
    should_clear (treeOf sSda) (cfgBase ClearPartType.LINUX)
      (Part.toDevice "sda" sda1) = true ∧
    should_clear (treeOf sSda) (cfgBase ClearPartType.LINUX)
      (Part.toDevice "sda" sda2) = true ∧
    should_clear (treeOf sSda) (cfgBase ClearPartType.LINUX) sda.toDevice = false := by
  refine ⟨?_, by decide, by decide, by decide⟩
  intro t cfg device hmode hp _ _ _ _ h
  unfold should_clear should_clear_kw at h
  rw [hmode] at h
  exact should_clear_core_linux_part _ _ _ _ device _ _ hp h

/-- Witness for C4 at the `sda1` fixture. -/
theorem clear_linux_partition_exclusion_witness :
    (Part.toDevice "sda" sda1).fmt.linux_native = true ∨
    (Part.toDevice "sda" sda1).flag_lvm = true ∨
    (Part.toDevice "sda" sda1).flag_raid = true ∨
    (Part.toDevice "sda" sda1).flag_swap = true :=
  clear_linux_partition_exclusion.1 (treeOf sSda) (cfgBase ClearPartType.LINUX)
    (Part.toDevice "sda" sda1) rfl (by decide) (by decide) (by decide)
    (by decide) (Or.inl (by decide)) (by decide)

/-!
Claim C5 — mode monotonicity (ALL is the superset mode).
-/

/-- Helper: if the policy body answers `true` under mode LINUX, NONE or
DEFAULT, it also answers `true` under mode ALL with everything else
fixed. -/
theorem should_clear_core_mono_all (cne init : Bool) (cpt : ClearPartType)
    (cpd cpdevs : List String) (device : Device) (empt dep_prot : Bool)
    (h : should_clear_core cne init cpt cpd cpdevs device empt dep_prot = true) :
    should_clear_core cne init ClearPartType.ALL cpd cpdevs device empt dep_prot = true := by
  unfold should_clear_core at h ⊢
  obtain ⟨hn1, h⟩ := guard_false_elim h
  obtain ⟨hn2, h⟩ := guard_false_elim h
  obtain ⟨-, h⟩ := guard_false_elim h
  obtain ⟨-, h⟩ := guard_false_elim h
  by_cases hpart : device.is_partition = true
  · simp only [hpart, if_true] at h
    obtain ⟨hn5, h⟩ := guard_false_elim h
    obtain ⟨hn6, h⟩ := guard_false_elim h
    obtain ⟨-, h⟩ := guard_false_elim h
    obtain ⟨hn8, h⟩ := guard_false_elim h
    simp [hn1, hn2, hn5, hn6, hn8, hpart]
  · simp only [hpart, if_false] at h
    by_cases hdisk : device.is_disk = true
    · simp only [hdisk, if_true] at h
      obtain ⟨-, h⟩ := guard_false_elim h
      obtain ⟨hn6, h⟩ := guard_false_elim h
      obtain ⟨-, h⟩ := guard_false_elim h
      obtain ⟨hn8, h⟩ := guard_false_elim h
      have hex : cne = true ∨ device.fmt.exists_ = true := by
        by_cases hc : cne = true
        · exact Or.inl hc
        · right
          by_contra he
          have hc0 : cne = false := by simpa using hc
          have he0 : device.fmt.exists_ = false := by simpa using he
          exact hn2 (by simp [hc0, he0, hdisk])
      rcases hex with hc | he
      · simp [hn1, hn6, hn8, hpart, hdisk, hc]
      · simp [hn1, hn6, hn8, hpart, hdisk, he]
    · simp only [hdisk, if_false] at h
      obtain ⟨hn8, h⟩ := guard_false_elim h
      have hd0 : device.is_disk = false := by simpa using hdisk
      have hex : cne = true ∨ device.exists_ = true := by
        by_cases hc : cne = true
        · exact Or.inl hc
        · right
          by_contra he
          have hc0 : cne = false := by simpa using hc
          have he0 : device.exists_ = false := by simpa using he
          exact hn2 (by simp [hc0, he0, hd0])
      rcases hex with hc | he
      · simp [hn1, hn8, hpart, hdisk, hc]
      · simp [hn1, hn8, hpart, hdisk, he]

/-- C5: for a fixed device and a configuration differing only in
`clear_part_type`, clearing approved under LINUX or under NONE/DEFAULT is
also approved under ALL. -/
theorem clear_mode_monotonicity :
    ∀ (t : DeviceTree) (cfg : StorageDiscoveryConfig) (device : Device),
      (cfg.clear_part_type = ClearPartType.LINUX ∨
        cfg.clear_part_type = ClearPartType.NONE ∨
        cfg.clear_part_type = ClearPartType.DEFAULT) →
      should_clear t cfg device = true →
      should_clear t { cfg with clear_part_type := ClearPartType.ALL } device = true := by
  intro t cfg device _ h
  exact should_clear_core_mono_all _ _ _ _ _ device _ _ h

/-- Witness for C5: disk `sdb`, approved under DEFAULT with
`initialize_disks`, is also approved under ALL. -/
theorem clear_mode_monotonicity_witness :
    should_clear (treeOf sSdb)
      { { cfgBase ClearPartType.DEFAULT with initialize_disks := true } with
          clear_part_type := ClearPartType.ALL }
      sdb.toDevice = true :=
  clear_mode_monotonicity (treeOf sSdb)
    { cfgBase ClearPartType.DEFAULT with initialize_disks := true }
    sdb.toDevice (Or.inr (Or.inr rfl)) (by decide)

/-!
Claims C7, C8, C10 — the Free Space Calculator.
-/

/-- Helper: looking up a disk's key in a per-disk generated association
list returns that disk's generated value, provided disk names are
distinct. -/
theorem lookup_disk_map (disks : List Disk) (g : Disk → Nat × Nat) (disk : Disk)
    (hmem : disk ∈ disks) (hnd : (disks.map (fun d => d.name)).Nodup) :
    List.lookup disk.name (disks.map (fun d => (d.name, g d))) = some (g disk) := by
  induction disks with
  | nil => cases hmem
  | cons d0 tl ih =>
    simp only [List.map_cons, List.nodup_cons, List.mem_map] at hnd
    rcases List.mem_cons.mp hmem with rfl | htl
    · simp [List.lookup_cons]
    · have hne : (disk.name == d0.name) = false := by
        have hne' : disk.name ≠ d0.name := fun he => hnd.1 ⟨disk, htl, he⟩
        simpa using hne'
      simp only [List.map_cons, List.lookup_cons, hne]
      exact ih htl hnd.2

/-- C7: whenever the Clear Policy approves clearing a whole candidate disk,
`get_free_space` reports exactly `(disk.size, 0)` for it: the full disk
capacity as prospective free space and nothing as shrinkable space. -/
theorem free_space_cleared_disk_full (s : State) (cfg : StorageDiscoveryConfig)
    (disksArg : Option (List Disk)) (cptArg : Option ClearPartType) (disk : Disk)
    (hmem : disk ∈ disksArg.getD s.disks)
    (hnd : ((disksArg.getD s.disks).map (fun d => d.name)).Nodup)
    (hsc : should_clear_kw (treeOf s) cfg (Disk.toDevice disk)
      (some (cptArg.getD cfg.clear_part_type)) (some [disk.name]) none = true) :
    List.lookup disk.name (get_free_space s cfg disksArg cptArg) =
      some (disk.size, 0) := by
  unfold get_free_space
  rw [lookup_disk_map _ _ disk hmem hnd]
  unfold free_entry
  rw [if_pos hsc]

/-- Witness for C7: under mode ALL disk `sda` is fully cleared and
reported as `(200, 0)`. -/
theorem free_space_cleared_disk_full_witness :
    List.lookup sda.name (get_free_space sSda (cfgBase ClearPartType.ALL)
      none none) = some (sda.size, 0) :=
  free_space_cleared_disk_full sSda (cfgBase ClearPartType.ALL) none none sda
    (by decide) (by decide) (by decide)

/-- Helper: when no partition of the fold is cleared, the fold leaves
`disk_free` untouched and adds each partition's shrinkable amount (zero
for formats without one) to `fs_free`. -/
theorem free_entry_fold_all_false (t : DeviceTree) (cfg : StorageDiscoveryConfig)
    (cpt : ClearPartType) (dn : String) (l : List (String × Part)) (a b : Nat)
    (hall : ∀ pr ∈ l, should_clear_kw t cfg (Part.toDevice pr.1 pr.2)
      (some cpt) (some [dn]) none = false) :
    l.foldl (free_entry_step t cfg cpt dn) (a, b) =
      (a, b + (l.map (fun pr => (pr.2.fmt.free).getD 0)).sum) := by
  induction l generalizing b with
  | nil => simp
  | cons hd tl ih =>
    have hhd := hall hd (List.mem_cons_self hd tl)
    have htl : ∀ pr ∈ tl, should_clear_kw t cfg (Part.toDevice pr.1 pr.2)
        (some cpt) (some [dn]) none = false :=
      fun pr hpr => hall pr (List.mem_cons_of_mem hd hpr)
    simp only [List.foldl_cons, List.map_cons, List.sum_cons]
    rcases hf : hd.2.fmt.free with _ | v
    · rw [show free_entry_step t cfg cpt dn (a, b) hd = (a, b) by
        unfold free_entry_step
        rw [if_neg (by simp [hhd]), hf]]
      rw [ih b htl]
      simp
    · rw [show free_entry_step t cfg cpt dn (a, b) hd = (a, b + v) by
        unfold free_entry_step
        rw [if_neg (by simp [hhd]), hf]]
      rw [ih (b + v) htl]
      simp [hf, Nat.add_assoc]

/-- C8: for a partitioned candidate disk on which neither the disk itself
nor any of its partitions would be cleared, `get_free_space` reports
`disk_free` exactly equal to the disklabel's unallocated space and
`fs_free` equal to the sum of the shrinkable space of the disk's
partitions. -/
theorem free_space_additivity (s : State) (cfg : StorageDiscoveryConfig)
    (disksArg : Option (List Disk)) (cptArg : Option ClearPartType) (disk : Disk)
    (hmem : disk ∈ disksArg.getD s.disks)
    (hnd : ((disksArg.getD s.disks).map (fun d => d.name)).Nodup)
    (hpart : disk.partitioned = true)
    (hsc : should_clear_kw (treeOf s) cfg (Disk.toDevice disk)
      (some (cptArg.getD cfg.clear_part_type)) (some [disk.name]) none = false)
    (hparts : ∀ pr ∈ (partPairs s).filter (fun pr => pr.1 == disk.name),
      should_clear_kw (treeOf s) cfg (Part.toDevice pr.1 pr.2)
        (some (cptArg.getD cfg.clear_part_type)) (some [disk.name]) none = false) :
    List.lookup disk.name (get_free_space s cfg disksArg cptArg) =
      some ((disk.fmt.free).getD 0,
        (((partPairs s).filter (fun pr => pr.1 == disk.name)).map
          (fun pr => (pr.2.fmt.free).getD 0)).sum) := by
  unfold get_free_space
  rw [lookup_disk_map _ _ disk hmem hnd]
  unfold free_entry
  rw [if_neg (by simp [hsc]), if_pos hpart,
    free_entry_fold_all_false _ _ _ _ _ _ _ hparts]
  simp

/-- Witness for C8: under mode NONE nothing on `sda` is cleared; the
report for `sda` is the label's 100 free units and 10 shrinkable units
from `sda1`. -/
theorem free_space_additivity_witness :
    List.lookup sda.name (get_free_space sSda (cfgBase ClearPartType.NONE)
      none none) =
      some ((sda.fmt.free).getD 0,
        (((partPairs sSda).filter (fun pr => pr.1 == sda.name)).map
          (fun pr => (pr.2.fmt.free).getD 0)).sum) :=
  free_space_additivity sSda (cfgBase ClearPartType.NONE) none none sda
    (by decide) (by decide) (by decide) (by decide) (by decide)

/-- C10: the free-space report is independent of the ambient
`clear_part_disks` setting: every policy query made by `get_free_space`
overrides the disk-scope list with the single disk being evaluated, so two
configurations differing only in `clear_part_disks` yield identical
reports. -/
theorem free_space_independent_of_clear_part_disks (s : State)
    (cfg : StorageDiscoveryConfig) (ds : List String)
    (disksArg : Option (List Disk)) (cptArg : Option ClearPartType) :
    get_free_space s { cfg with clear_part_disks := ds } disksArg cptArg =
      get_free_space s cfg disksArg cptArg :=
  rfl

/-!
Claim C9 — protection of the live backing device's parents.
-/

/-- C9 counterexample: after the live backing device `live0` is resolved
and marked, the grandparent `sdx` is an ancestor of `live0` yet is not
marked protected — only direct parents are marked, contrary to the claim
that every ancestor is. -/
theorem live_ancestors_counterexample :
    "sdx" ∈ ancestors tLive liveDev ∧
    (Option.map (fun d => d.protected_)
      (get_device_by_name
        (mark_protected_device ["live0"] (some "live0") tLive liveDev) "live0")
      = some true) ∧
    (Option.map (fun d => d.protected_)
      (get_device_by_name
        (mark_protected_device ["live0"] (some "live0") tLive liveDev) "md0")
      = some true) ∧
    (Option.map (fun d => d.protected_)
      (get_device_by_name
        (mark_protected_device ["live0"] (some "live0") tLive liveDev) "sdx")
      = some false) := by
  decide

/-- Helper: folding `set_protected` over a name list marks exactly the
devices whose name occurs in the list. -/
theorem foldl_set_protected_devices (ns : List String) (t : DeviceTree) :
    (ns.foldl set_protected t).devices =
      t.devices.map (fun d =>
        if ns.contains d.name then { d with protected_ := true } else d) := by
  induction ns generalizing t with
  | nil =>
    simp [List.contains]
  | cons n ns ih =>
    simp only [List.foldl_cons]
    rw [ih]
    unfold set_protected
    rw [List.map_map]
    apply List.map_congr_left
    intro d _
    by_cases hdn : d.name = n <;> by_cases hns : d.name ∈ ns <;>
      simp [Function.comp, hdn, hns, List.contains_cons]

/-- C9 amended: when the resolved protected device is the live backing
device, it is marked protected and each of its direct parents is marked
protected (ancestors further up are not touched). -/
theorem live_parents_protected (t : DeviceTree) (pnames : List String)
    (live : Option String) (device : Device)
    (hin : device.name ∈ pnames) (hlive : live = some device.name) :
    ∀ x ∈ (mark_protected_device pnames live t device).devices,
      (x.name = device.name ∨ x.name ∈ device.parents) → x.protected_ = true := by
  intro x hx hnx
  unfold mark_protected_device at hx
  have h1 : pnames.contains device.name = true := List.elem_eq_true_of_mem hin
  have h2 : (live == some device.name) = true := by simp [hlive]
  rw [if_pos h1, if_pos h2] at hx
  rw [foldl_set_protected_devices] at hx
  unfold set_protected at hx
  rw [List.map_map] at hx
  obtain ⟨y, -, rfl⟩ := List.mem_map.mp hx
  simp only [Function.comp] at hnx ⊢
  by_cases hyn : y.name = device.name
  · by_cases hc : y.name ∈ device.parents <;> simp [hyn, hc]
  · by_cases hc : y.name ∈ device.parents
    · simp [hyn, hc]
    · exfalso
      simp [hyn, hc] at hnx

/-- Witness for the amended C9 at the `tLive` fixture: the direct parent
`md0` ends up protected. -/
theorem live_parents_protected_witness :
    liveDev.name ∈ ["live0"] ∧
    ({ midDev with protected_ := true } : Device).protected_ = true :=
  ⟨by decide,
    live_parents_protected tLive ["live0"] (some "live0") liveDev
      (by decide) rfl { midDev with protected_ := true } (by decide) (by decide)⟩

/-!
Claim C6 — idempotence of `clear_partitions`.  Supporting lemmas:
localization of the policy to single disks in a flat, well-named state.
-/

/-- Helper: finding by name returns the element itself when all names are
distinct. -/
theorem find_name_self (l : List Device) (x : Device)
    (hx : x ∈ l) (hnd : (l.map (fun d => d.name)).Nodup) :
    l.find? (fun d => d.name == x.name) = some x := by
  induction l with
  | nil => cases hx
  | cons a tl ih =>
    simp only [List.map_cons, List.nodup_cons, List.mem_map] at hnd
    rcases List.mem_cons.mp hx with rfl | hx'
    · simp [List.find?_cons]
    · have hne : (a.name == x.name) = false := by
        have hne' : a.name ≠ x.name := fun he => hnd.1 ⟨x, hx', he.symm⟩
        simpa using hne'
      rw [List.find?_cons, hne]
      exact ih hx' hnd.2

/-- Helper: `get_device_by_name` returns the device itself. -/
theorem get_device_by_name_self (t : DeviceTree) (x : Device)
    (hx : x ∈ t.devices) (hnd : (t.devices.map (fun d => d.name)).Nodup) :
    get_device_by_name t x.name = some x :=
  find_name_self _ _ hx hnd

/-- Helper: a disk's device view is in the tree of its state. -/
theorem disk_toDevice_mem (s : State) (d : Disk) (hd : d ∈ s.disks) :
    d.toDevice ∈ (treeOf s).devices :=
  List.mem_append_left _ (List.mem_map_of_mem _ hd)

/-- Helper: a partition's device view is in the tree of its state. -/
theorem part_toDevice_mem (s : State) (d : Disk) (p : Part)
    (hd : d ∈ s.disks) (hp : p ∈ d.parts) :
    Part.toDevice d.name p ∈ (treeOf s).devices := by
  refine List.mem_append_right _ (List.mem_flatMap.mpr ⟨d, hd, ?_⟩)
  exact List.mem_map_of_mem _ hp

/-- Helper: the traversal of an empty frontier is empty. -/
theorem ancestors_aux_nil (t : DeviceTree) :
    ∀ fuel, ancestors_aux t fuel [] = [] := by
  intro fuel
  induction fuel with
  | zero => rfl
  | succ n ih => simp [ancestors_aux, ih]

/-- Helper: a device without parents has no ancestors. -/
theorem ancestors_no_parents (t : DeviceTree) (x : Device) (hx : x.parents = []) :
    ancestors t x = [] := by
  unfold ancestors
  rw [hx]
  exact ancestors_aux_nil t _

/-- Helper: in a flat state the ancestors of a partition view are exactly
its containing disk. -/
theorem ancestors_part (s : State) (d : Disk) (p : Part)
    (hnd : ((treeOf s).devices.map (fun d => d.name)).Nodup)
    (hd : d ∈ s.disks) :
    ancestors (treeOf s) (Part.toDevice d.name p) = [d.name] := by
  have hne : (treeOf s).devices ≠ [] := by
    intro h
    have := disk_toDevice_mem s d hd
    rw [h] at this
    cases this
  obtain ⟨n, hn⟩ := Nat.exists_eq_succ_of_ne_zero
    (Nat.pos_iff_ne_zero.mp (List.length_pos.mpr hne))
  have hpo : parents_of (treeOf s) d.name = [] := by
    unfold parents_of
    rw [show get_device_by_name (treeOf s) d.name = some d.toDevice from
      get_device_by_name_self _ _ (disk_toDevice_mem s d hd) hnd]
    rfl
  unfold ancestors
  rw [hn]
  show ancestors_aux (treeOf s) (n + 1) [d.name] = [d.name]
  rw [ancestors_aux]
  simp [hpo, ancestors_aux_nil]

/-- Helper: every ancestor name occurring in a flat state's tree is a disk
name. -/
theorem ancestors_mem_disk_names (s : State)
    (hnd : ((treeOf s).devices.map (fun d => d.name)).Nodup) :
    ∀ x ∈ (treeOf s).devices, ∀ nm ∈ ancestors (treeOf s) x,
      nm ∈ s.disks.map (fun d => d.name) := by
  intro x hx nm hnm
  rcases List.mem_append.mp hx with hl | hr
  · obtain ⟨d, hd, rfl⟩ := List.mem_map.mp hl
    rw [ancestors_no_parents _ _ rfl] at hnm
    cases hnm
  · obtain ⟨d, hd, hpm⟩ := List.mem_flatMap.mp hr
    obtain ⟨p, hp, rfl⟩ := List.mem_map.mp hpm
    rw [ancestors_part s d p hnd hd] at hnm
    rcases List.mem_singleton.mp hnm with rfl
    exact List.mem_map_of_mem _ hd

/-- Helper: in a flat state a partition view has no protected dependents
(it has no dependents at all). -/
theorem dependents_any_part (s : State) (dn : String) (p : Part)
    (hnd : ((treeOf s).devices.map (fun d => d.name)).Nodup)
    (hpn : p.name ∉ s.disks.map (fun d => d.name)) :
    (get_dependent_devices (treeOf s) (Part.toDevice dn p)).any
      (fun x => x.protected_) = false := by
  rw [Bool.eq_false_iff]
  intro h
  obtain ⟨x, hx, -⟩ := List.any_eq_true.mp h
  obtain ⟨hxm, hcont⟩ := List.mem_filter.mp hx
  exact hpn (ancestors_mem_disk_names s hnd x hxm p.name
    (List.mem_of_elem_eq_true hcont))

/-- Helper: in a flat state, a protected dependent of a disk view is
exactly a protected partition of that disk. -/
theorem dependents_any_disk (s : State) (d : Disk)
    (hnd : ((treeOf s).devices.map (fun d => d.name)).Nodup)
    (hd : d ∈ s.disks) :
    (get_dependent_devices (treeOf s) d.toDevice).any (fun x => x.protected_) =
      d.parts.any (fun p => p.protected_) := by
  have hdnd : (s.disks.map (fun d => d.name)).Nodup := by
    have : ((treeOf s).devices.map (fun d => d.name)) =
        s.disks.map (fun d => d.name) ++
          (s.disks.flatMap (fun d => d.parts.map (Part.toDevice d.name))).map
            (fun d => d.name) := by
      unfold treeOf
      rw [List.map_append, List.map_map]
      rfl
    rw [this] at hnd
    exact (List.nodup_append.mp hnd).1
  rw [Bool.eq_iff_iff]
  simp only [List.any_eq_true, get_dependent_devices, List.mem_filter]
  constructor
  · rintro ⟨x, ⟨hx, hcont⟩, hprot⟩
    have hmem := List.mem_of_elem_eq_true hcont
    rcases List.mem_append.mp hx with hl | hr
    · obtain ⟨d', -, rfl⟩ := List.mem_map.mp hl
      rw [ancestors_no_parents _ _ rfl] at hmem
      cases hmem
    · obtain ⟨d', hd', hpm⟩ := List.mem_flatMap.mp hr
      obtain ⟨p, hp, rfl⟩ := List.mem_map.mp hpm
      rw [ancestors_part s d' p hnd hd'] at hmem
      rcases List.mem_singleton.mp hmem with he
      have hdd : d' = d :=
        List.inj_on_of_nodup_map hdnd hd' hd he.symm
      subst hdd
      exact ⟨p, hp, hprot⟩
  · rintro ⟨p, hp, hprot⟩
    refine ⟨Part.toDevice d.name p, ⟨part_toDevice_mem s d p hd hp, ?_⟩, hprot⟩
    rw [ancestors_part s d p hnd hd]
    show ([d.name].contains d.name) = true
    simp

/-- Helper: `empty_device` of a partition view is format-emptiness (a
partition view is never `partitioned`). -/
theorem empty_device_part (t : DeviceTree) (dn : String) (p : Part) :
    empty_device t (Part.toDevice dn p) = (p.fmt.type == none) :=
  rfl

/-- Helper: `empty_device` of a disk view in a flat state is `diskEmpty`. -/
theorem empty_device_disk (s : State) (d : Disk)
    (hnd : ((treeOf s).devices.map (fun d => d.name)).Nodup)
    (hd : d ∈ s.disks) :
    empty_device (treeOf s) d.toDevice = diskEmpty d := by
  unfold empty_device diskEmpty
  by_cases hp : d.partitioned = true
  · rw [if_pos (show d.toDevice.partitioned = true from hp), if_pos hp]
    have hchild : (d.toDevice.children).filterMap (get_device_by_name (treeOf s)) =
        d.parts.map (Part.toDevice d.name) := by
      show (d.parts.map (fun p => p.name)).filterMap (get_device_by_name (treeOf s)) =
        d.parts.map (Part.toDevice d.name)
      rw [List.filterMap_map]
      have hpt : ∀ p ∈ d.parts,
          (get_device_by_name (treeOf s) ∘ fun p => p.name) p =
            (fun p => some (Part.toDevice d.name p)) p := by
        intro p hp'
        exact get_device_by_name_self _ _ (part_toDevice_mem s d p hd hp') hnd
      rw [List.filterMap_congr hpt]
      exact List.filterMap_eq_map_iff_forall_eq_some.mpr fun x => congrFun rfl
    rw [hchild, Bool.eq_iff_iff]
    simp only [List.all_eq_true, List.mem_map]
    constructor
    · intro h p hp
      exact h _ ⟨p, hp, rfl⟩
    · rintro h x ⟨p, hp, rfl⟩
      exact h p hp
  · rw [if_neg (show ¬d.toDevice.partitioned = true from hp), if_neg hp]
    rfl

/-- Helper: `should_clear` on a partition view equals its tree-free
form. -/
theorem should_clear_part_local (s : State) (cfg : StorageDiscoveryConfig)
    (dn : String) (p : Part)
    (hnd : ((treeOf s).devices.map (fun d => d.name)).Nodup)
    (hpn : p.name ∉ s.disks.map (fun d => d.name)) :
    should_clear (treeOf s) cfg (Part.toDevice dn p) = shouldClearPartF cfg dn p := by
  unfold should_clear should_clear_kw shouldClearPartF
  rw [dependents_any_part s dn p hnd hpn]
  rfl

/-- Helper: `should_clear` on a disk view equals its tree-free form. -/
theorem should_clear_disk_local (s : State) (cfg : StorageDiscoveryConfig)
    (d : Disk)
    (hnd : ((treeOf s).devices.map (fun d => d.name)).Nodup)
    (hd : d ∈ s.disks) :
    should_clear (treeOf s) cfg d.toDevice = shouldClearDiskF cfg d := by
  unfold should_clear should_clear_kw shouldClearDiskF
  rw [dependents_any_disk s d hnd hd, empty_device_disk s d hnd hd]
  rfl

/-- Helper: the tree name list of a state, disks first then partitions. -/
theorem treeOf_names (s : State) :
    (treeOf s).devices.map (fun d => d.name) =
      s.disks.map (fun d => d.name) ++
        s.disks.flatMap (fun d => d.parts.map (fun p => p.name)) := by
  show ((s.disks.map Disk.toDevice ++
      s.disks.flatMap (fun d => d.parts.map (Part.toDevice d.name))).map
        (fun d => d.name)) = _
  rw [List.map_append]
  congr 1
  · rw [List.map_map]
    rfl
  · rw [List.map_flatMap]
    simp only [List.map_map]
    rfl

/-- Helper: componentwise sublists produce a sublist under `flatMap`. -/
theorem flatMap_sublist {α β : Type} (l : List α) (f g : α → List β)
    (h : ∀ a ∈ l, List.Sublist (f a) (g a)) :
    List.Sublist (l.flatMap f) (l.flatMap g) := by
  induction l with
  | nil => simp
  | cons a tl ih =>
    simp only [List.flatMap_cons]
    exact (h a (List.mem_cons_self a tl)).append
      (ih fun x hx => h x (List.mem_cons_of_mem a hx))

/-- Helper: removing a partition keeps the disk name list. -/
theorem removePart_disk_names (st : State) (nm : String) :
    (removePartByName st nm).disks.map (fun d => d.name) =
      st.disks.map (fun d => d.name) := by
  unfold removePartByName
  rw [List.map_map]
  rfl

/-- Helper: removing a partition keeps tree names distinct. -/
theorem removePart_names_nodup (st : State) (nm : String)
    (hnd : ((treeOf st).devices.map (fun d => d.name)).Nodup) :
    ((treeOf (removePartByName st nm)).devices.map (fun d => d.name)).Nodup := by
  refine List.Nodup.sublist ?_ hnd
  rw [treeOf_names, treeOf_names]
  refine List.Sublist.append ?_ ?_
  · rw [removePart_disk_names]
  · unfold removePartByName
    rw [List.flatMap_map]
    refine flatMap_sublist _ _ _ ?_
    intro d _
    exact (List.filter_sublist _).map _

/-- Helper: along the partition pass each pair's policy answer is its
tree-free form, so the pass may be computed with the local step. -/
theorem partition_fold_local (cfg : StorageDiscoveryConfig) :
    ∀ (l : List (String × Part)) (st : State),
      ((treeOf st).devices.map (fun d => d.name)).Nodup →
      (∀ pr ∈ l, pr.2.name ∉ st.disks.map (fun d => d.name)) →
      l.foldl (fun st pr =>
        if should_clear (treeOf st) cfg (Part.toDevice pr.1 pr.2) then
          removePartByName st pr.2.name
        else st) st = l.foldl (partStepLocal cfg) st := by
  intro l
  induction l with
  | nil => intro st _ _; rfl
  | cons pr tl ih =>
    intro st hnd hl
    simp only [List.foldl_cons]
    rw [should_clear_part_local st cfg pr.1 pr.2 hnd
      (hl pr (List.mem_cons_self pr tl))]
    by_cases hc : shouldClearPartF cfg pr.1 pr.2 = true
    · rw [if_pos hc,
        show partStepLocal cfg st pr = removePartByName st pr.2.name from by
          unfold partStepLocal
          rw [if_pos hc]]
      refine ih _ (removePart_names_nodup st pr.2.name hnd) ?_
      intro q hq
      rw [removePart_disk_names]
      exact hl q (List.mem_cons_of_mem pr hq)
    · rw [if_neg hc,
        show partStepLocal cfg st pr = st from by
          unfold partStepLocal
          rw [if_neg hc]]
      exact ih st hnd fun q hq => hl q (List.mem_cons_of_mem pr hq)

/-- Helper: the local partition pass removes, on every disk, exactly the
partitions whose name the pair list clears. -/
theorem local_fold_closed (cfg : StorageDiscoveryConfig) :
    ∀ (l : List (String × Part)) (st : State),
      l.foldl (partStepLocal cfg) st =
        stateMap (dropPartsNamed (clearedNames cfg l)) st := by
  intro l
  induction l with
  | nil =>
    intro st
    show st = stateMap (dropPartsNamed (clearedNames cfg [])) st
    unfold stateMap
    have hmap : st.disks.map (dropPartsNamed (clearedNames cfg [])) = st.disks := by
      conv_rhs => rw [← List.map_id st.disks]
      apply List.map_congr_left
      intro d _
      unfold dropPartsNamed
      have hps : d.parts.filter
          (fun p => !((clearedNames cfg []).contains p.name)) = d.parts :=
        List.filter_eq_self.mpr (fun p _ => by simp [clearedNames])
      rw [hps]
      rfl
    show st = (⟨st.disks.map (dropPartsNamed (clearedNames cfg []))⟩ : State)
    rw [hmap]
  | cons pr tl ih =>
    intro st
    simp only [List.foldl_cons]
    by_cases hc : shouldClearPartF cfg pr.1 pr.2 = true
    · rw [show partStepLocal cfg st pr = removePartByName st pr.2.name from by
        unfold partStepLocal
        rw [if_pos hc]]
      rw [ih]
      have hcn : clearedNames cfg (pr :: tl) = pr.2.name :: clearedNames cfg tl := by
        simp [clearedNames, hc]
      unfold stateMap removePartByName
      congr 1
      rw [List.map_map]
      apply List.map_congr_left
      intro d _
      simp only [Function.comp, dropPartsNamed]
      congr 1
      rw [List.filter_filter, hcn]
      apply List.filter_congr
      intro p _
      rw [List.contains_cons]
      cases hb : (p.name == pr.2.name) <;>
        cases hb2 : (clearedNames cfg tl).contains p.name <;> simp [hb, hb2]
    · rw [show partStepLocal cfg st pr = st from by
        unfold partStepLocal
        rw [if_neg hc]]
      rw [ih]
      have hcn : clearedNames cfg (pr :: tl) = clearedNames cfg tl := by
        simp [clearedNames, hc]
      rw [hcn]

/-- Helper: a partition's pair is among the state's pairs. -/
theorem pair_mem_partPairs (s : State) (d : Disk) (p : Part)
    (hd : d ∈ s.disks) (hp : p ∈ d.parts) : (d.name, p) ∈ partPairs s :=
  List.mem_flatMap.mpr ⟨d, hd, List.mem_map_of_mem _ hp⟩

/-- Helper: the partition names of the pair list are the partition names
of the tree. -/
theorem partPairs_names (s : State) :
    (partPairs s).map (fun pr => pr.2.name) =
      s.disks.flatMap (fun d => d.parts.map (fun p => p.name)) := by
  unfold partPairs
  rw [List.map_flatMap]
  simp only [List.map_map]
  rfl

/-- Helper: with distinct tree names, partition names are distinct across
the whole state. -/
theorem partPairs_name_nodup (s : State)
    (hnd : ((treeOf s).devices.map (fun d => d.name)).Nodup) :
    ((partPairs s).map (fun pr => pr.2.name)).Nodup := by
  rw [partPairs_names]
  rw [treeOf_names] at hnd
  exact (List.nodup_append.mp hnd).2.1

/-- Helper: with distinct tree names, no partition shares a disk's name. -/
theorem part_name_not_disk_name (s : State)
    (hnd : ((treeOf s).devices.map (fun d => d.name)).Nodup)
    (d : Disk) (hd : d ∈ s.disks) (p : Part) (hp : p ∈ d.parts) :
    p.name ∉ s.disks.map (fun d => d.name) := by
  rw [treeOf_names] at hnd
  intro hmem
  exact (List.nodup_append.mp hnd).2.2 hmem
    (List.mem_flatMap.mpr ⟨d, hd, List.mem_map_of_mem _ hp⟩)

/-- Helper: for a partition of the state, membership of its name in the
cleared-name list of any permutation of the state's pairs is exactly the
local policy answer. -/
theorem mem_clearedNames_iff (cfg : StorageDiscoveryConfig) (s : State)
    (hnd : ((treeOf s).devices.map (fun d => d.name)).Nodup)
    (d : Disk) (hd : d ∈ s.disks) (p : Part) (hp : p ∈ d.parts)
    (l : List (String × Part)) (hperm : ∀ pr, pr ∈ l ↔ pr ∈ partPairs s) :
    ((clearedNames cfg l).contains p.name) = shouldClearPartF cfg d.name p := by
  rw [Bool.eq_iff_iff]
  constructor
  · intro hct
    have hm : p.name ∈ clearedNames cfg l := List.mem_of_elem_eq_true hct
    obtain ⟨pr, hpr, hname⟩ := List.mem_map.mp hm
    obtain ⟨hprl, hc⟩ := List.mem_filter.mp hpr
    have hpp : pr ∈ partPairs s := (hperm pr).mp hprl
    have heqpr : pr = (d.name, p) := by
      apply List.inj_on_of_nodup_map (partPairs_name_nodup s hnd) hpp
        (pair_mem_partPairs s d p hd hp)
      exact hname
    rw [heqpr] at hc
    exact hc
  · intro hsc
    apply List.elem_eq_true_of_mem
    apply List.mem_map.mpr
    refine ⟨(d.name, p), List.mem_filter.mpr ⟨?_, hsc⟩, rfl⟩
    exact (hperm (d.name, p)).mpr (pair_mem_partPairs s d p hd hp)

/-- Helper: the partition pass removes, on every disk, exactly the
partitions the policy clears. -/
theorem partition_pass_closed (cfg : StorageDiscoveryConfig) (s : State)
    (hnd : ((treeOf s).devices.map (fun d => d.name)).Nodup) :
    partition_pass cfg s = stateMap (partFilterF cfg) s := by
  have hperm : ∀ pr, pr ∈ List.mergeSort (partPairs s)
      (fun a b => Nat.ble b.2.number a.2.number) ↔ pr ∈ partPairs s :=
    fun pr => (List.mergeSort_perm (partPairs s) _).mem_iff
  have hscope : ∀ pr ∈ List.mergeSort (partPairs s)
      (fun a b => Nat.ble b.2.number a.2.number),
      pr.2.name ∉ s.disks.map (fun d => d.name) := by
    intro pr hpr
    have hm : pr ∈ partPairs s := (hperm pr).mp hpr
    obtain ⟨d, hd, hm2⟩ := List.mem_flatMap.mp hm
    obtain ⟨p, hp, rfl⟩ := List.mem_map.mp hm2
    exact part_name_not_disk_name s hnd d hd p hp
  unfold partition_pass
  rw [partition_fold_local cfg _ s hnd hscope, local_fold_closed]
  unfold stateMap
  congr 1
  apply List.map_congr_left
  intro d hd
  unfold dropPartsNamed partFilterF
  congr 1
  apply List.filter_congr
  intro p hp
  rw [mem_clearedNames_iff cfg s hnd d hd p hp _ hperm]

/-- Helper: `remove_empty_extended_partitions` in per-disk form. -/
theorem remove_empty_ext_closed (s : State) :
    remove_empty_extended_partitions s = stateMap removeEmptyExtF s :=
  rfl

/-- Helper: a `true` policy answer implies the device is unprotected (the
protection filter precedes the final `return True`). -/
theorem should_clear_core_true_not_protected (cne init : Bool)
    (cpt : ClearPartType) (cpd cpdevs : List String) (device : Device)
    (empt dep_prot : Bool)
    (h : should_clear_core cne init cpt cpd cpdevs device empt dep_prot = true) :
    device.protected_ = false := by
  by_contra hc
  have hp : device.protected_ = true := by simpa using hc
  rw [should_clear_core_protected cne init cpt cpd cpdevs device empt dep_prot
    (by simp [hp])] at h
  cases h

/-- Helper: a disk the policy clears is unprotected. -/
theorem shouldClearDiskF_true_not_protected (cfg : StorageDiscoveryConfig)
    (d : Disk) (h : shouldClearDiskF cfg d = true) : d.protected_ = false :=
  should_clear_core_true_not_protected _ _ _ _ _ _ _ _ h

/-- Helper: disk names are distinct when tree names are. -/
theorem disk_names_nodup (s : State)
    (hnd : ((treeOf s).devices.map (fun d => d.name)).Nodup) :
    (s.disks.map (fun d => d.name)).Nodup := by
  rw [treeOf_names] at hnd
  exact (List.nodup_append.mp hnd).1

/-- Helper: the disk loop iteration keeps the disk's name. -/
theorem diskStepF_name (cfg : StorageDiscoveryConfig) (d : Disk) :
    (diskStepF cfg d).name = d.name := by
  unfold diskStepF
  by_cases hsc : shouldClearDiskF cfg d = true <;>
    by_cases hz : (cfg.zero_mbr && d.fmt.type == none) = true <;>
    by_cases hp : d.protected_ = true <;>
    simp [hsc, hz, hp]

/-- Helper: evaluation of the disk loop iteration when the policy clears
the disk. -/
theorem diskStepF_eval_sc (cfg : StorageDiscoveryConfig) (d : Disk)
    (hsc : shouldClearDiskF cfg d = true) :
    diskStepF cfg d = { d with parts := [], fmt := freshLabel } := by
  have hprot := shouldClearDiskF_true_not_protected cfg d hsc
  unfold diskStepF
  rw [hsc]
  simp [hprot]

/-- Helper: evaluation of the disk loop iteration on an unprotected disk
under `zerombr` only. -/
theorem diskStepF_eval_z (cfg : StorageDiscoveryConfig) (d : Disk)
    (hsc : shouldClearDiskF cfg d = false)
    (hz : (cfg.zero_mbr && d.fmt.type == none) = true)
    (hprot : d.protected_ = false) :
    diskStepF cfg d = { d with fmt := freshLabel } := by
  unfold diskStepF
  rw [hsc]
  simp [hz, hprot]

/-- Helper: the disk loop iteration on a protected disk with a `false`
policy answer changes nothing. -/
theorem diskStepF_eval_prot (cfg : StorageDiscoveryConfig) (d : Disk)
    (hsc : shouldClearDiskF cfg d = false)
    (hprot : d.protected_ = true) :
    diskStepF cfg d = d := by
  unfold diskStepF
  rw [hsc]
  simp [hprot]

/-- Helper: the disk loop iteration without `zerombr` and with a `false`
policy answer changes nothing. -/
theorem diskStepF_eval_none (cfg : StorageDiscoveryConfig) (d : Disk)
    (hsc : shouldClearDiskF cfg d = false)
    (hz : (cfg.zero_mbr && d.fmt.type == none) = false) :
    diskStepF cfg d = d := by
  unfold diskStepF
  rw [hsc]
  simp [hz]

/-- Helper: one disk loop iteration in per-disk form: only the named disk
is transformed, by `diskStepF`. -/
theorem disk_step_closed (cfg : StorageDiscoveryConfig) (st : State)
    (hnd : ((treeOf st).devices.map (fun d => d.name)).Nodup) (nm : String) :
    disk_step cfg st nm =
      stateMap (fun d => if d.name == nm then diskStepF cfg d else d) st := by
  unfold disk_step
  cases hfind : st.disks.find? (fun d => d.name == nm) with
  | none =>
    have hall := List.find?_eq_none.mp hfind
    show st = _
    unfold stateMap
    have hid : st.disks.map (fun d => if d.name == nm then diskStepF cfg d else d) =
        st.disks := by
      conv_rhs => rw [← List.map_id st.disks]
      apply List.map_congr_left
      intro d hd
      simp [hall d hd]
    rw [hid]
  | some disk =>
    have hmem : disk ∈ st.disks := List.mem_of_find?_eq_some hfind
    have hbeq : (disk.name == nm) = true := by
      have hh := List.find?_some hfind
      simpa using hh
    have hdn := disk_names_nodup st hnd
    dsimp only
    rw [should_clear_disk_local st cfg disk hnd hmem]
    by_cases hsc : shouldClearDiskF cfg disk = true
    · have hprot := shouldClearDiskF_true_not_protected cfg disk hsc
      simp only [hsc, hprot, if_true, Bool.or_true, Bool.false_eq_true, if_false]
      show initialize_disk (remove_disk_children st nm) nm = _
      unfold initialize_disk remove_disk_children stateMap
      congr 1
      rw [List.map_map]
      apply List.map_congr_left
      intro d hd
      by_cases hdnm : (d.name == nm) = true
      · have hdd : d = disk := by
          apply List.inj_on_of_nodup_map hdn hd hmem
          have h1 : d.name = nm := by simpa using hdnm
          have h2 : disk.name = nm := by simpa using hbeq
          rw [h1, h2]
        subst hdd
        simp [Function.comp, hbeq, diskStepF_eval_sc cfg d hsc]
      · simp [Function.comp, hdnm]
    · have hsc' : shouldClearDiskF cfg disk = false := by simpa using hsc
      by_cases hz : (cfg.zero_mbr && disk.fmt.type == none) = true
      · by_cases hprot : disk.protected_ = true
        · simp only [hsc', hz, hprot, Bool.false_eq_true, if_false, Bool.or_false,
            if_true]
          show st = _
          unfold stateMap
          have hid : st.disks.map
              (fun d => if d.name == nm then diskStepF cfg d else d) = st.disks := by
            conv_rhs => rw [← List.map_id st.disks]
            apply List.map_congr_left
            intro d hd
            by_cases hdnm : (d.name == nm) = true
            · have hdd : d = disk := by
                apply List.inj_on_of_nodup_map hdn hd hmem
                have h1 : d.name = nm := by simpa using hdnm
                have h2 : disk.name = nm := by simpa using hbeq
                rw [h1, h2]
              subst hdd
              simp [hdnm, diskStepF_eval_prot cfg d hsc' hprot]
            · simp [hdnm]
          rw [hid]
        · have hprot' : disk.protected_ = false := by simpa using hprot
          simp only [hsc', hz, hprot', Bool.false_eq_true, if_false, Bool.or_false,
            if_true]
          show initialize_disk st nm = _
          unfold initialize_disk stateMap
          congr 1
          apply List.map_congr_left
          intro d hd
          by_cases hdnm : (d.name == nm) = true
          · have hdd : d = disk := by
              apply List.inj_on_of_nodup_map hdn hd hmem
              have h1 : d.name = nm := by simpa using hdnm
              have h2 : disk.name = nm := by simpa using hbeq
              rw [h1, h2]
            subst hdd
            simp [hdnm, diskStepF_eval_z cfg d hsc' hz hprot']
          · simp [hdnm]
      · have hz' : (cfg.zero_mbr && disk.fmt.type == none) = false := by
          simpa using hz
        simp only [hsc', hz', Bool.false_eq_true, if_false, Bool.or_false]
        show st = _
        unfold stateMap
        have hid : st.disks.map
            (fun d => if d.name == nm then diskStepF cfg d else d) = st.disks := by
          conv_rhs => rw [← List.map_id st.disks]
          apply List.map_congr_left
          intro d hd
          by_cases hdnm : (d.name == nm) = true
          · have hdd : d = disk := by
              apply List.inj_on_of_nodup_map hdn hd hmem
              have h1 : d.name = nm := by simpa using hdnm
              have h2 : disk.name = nm := by simpa using hbeq
              rw [h1, h2]
            subst hdd
            simp [hdnm, diskStepF_eval_none cfg d hsc' hz']
          · simp [hdnm]
        rw [hid]

/-- Helper: the disk loop iteration only drops partitions. -/
theorem diskStepF_parts_sublist (cfg : StorageDiscoveryConfig) (d : Disk) :
    List.Sublist (diskStepF cfg d).parts d.parts := by
  unfold diskStepF
  by_cases hsc : shouldClearDiskF cfg d = true <;>
    by_cases hz : (cfg.zero_mbr && d.fmt.type == none) = true <;>
    by_cases hp : d.protected_ = true <;>
    simp [hsc, hz, hp, List.nil_sublist]

/-- Helper: a name-keeping, partition-dropping disk transformation keeps
tree names distinct. -/
theorem stateMap_names_nodup (st : State) (f : Disk → Disk)
    (hname : ∀ d, (f d).name = d.name)
    (hparts : ∀ d, List.Sublist ((f d).parts.map (fun p => p.name))
      (d.parts.map (fun p => p.name)))
    (hnd : ((treeOf st).devices.map (fun d => d.name)).Nodup) :
    ((treeOf (stateMap f st)).devices.map (fun d => d.name)).Nodup := by
  refine List.Nodup.sublist ?_ hnd
  rw [treeOf_names, treeOf_names]
  refine List.Sublist.append ?_ ?_
  · show List.Sublist ((st.disks.map f).map (fun d => d.name)) _
    rw [List.map_map]
    rw [List.map_congr_left (fun d _ => (show ((fun d => d.name) ∘ f) d = d.name
      from hname d))]
  · show List.Sublist ((st.disks.map f).flatMap
      (fun d => d.parts.map (fun p => p.name))) _
    rw [List.flatMap_map]
    exact flatMap_sublist _ _ _ (fun d _ => hparts d)

/-- Helper: the disk loop in per-disk form: each disk whose name occurs in
the iteration list is transformed by `diskStepF`, independently of the
others. -/
theorem disk_pass_closed (cfg : StorageDiscoveryConfig) :
    ∀ (ns : List String) (st : State),
      ((treeOf st).devices.map (fun d => d.name)).Nodup → ns.Nodup →
      ns.foldl (disk_step cfg) st =
        stateMap (fun d => if ns.contains d.name then diskStepF cfg d else d) st := by
  intro ns
  induction ns with
  | nil =>
    intro st _ _
    show st = _
    unfold stateMap
    have hid : st.disks.map
        (fun d => if ([] : List String).contains d.name then diskStepF cfg d else d) =
        st.disks := by
      conv_rhs => rw [← List.map_id st.disks]
      apply List.map_congr_left
      intro d _
      simp
    rw [hid]
  | cons n tl ih =>
    intro st hnd hns
    simp only [List.foldl_cons]
    rw [disk_step_closed cfg st hnd n]
    have hnd' : ((treeOf (stateMap
        (fun d => if d.name == n then diskStepF cfg d else d) st)).devices.map
          (fun d => d.name)).Nodup := by
      refine stateMap_names_nodup st _ ?_ ?_ hnd
      · intro d
        by_cases hdn : (d.name == n) = true <;> simp [hdn, diskStepF_name]
      · intro d
        by_cases hdn : (d.name == n) = true
        · simpa [hdn] using (diskStepF_parts_sublist cfg d).map (fun p => p.name)
        · simp [hdn]
    rw [ih _ hnd' (List.nodup_cons.mp hns).2]
    unfold stateMap
    congr 1
    rw [List.map_map]
    apply List.map_congr_left
    intro d hd
    have hn : n ∉ tl := (List.nodup_cons.mp hns).1
    by_cases hdn : (d.name == n) = true
    · have hdname : d.name = n := by simpa using hdn
      have hnotin : (diskStepF cfg d).name ∉ tl := by
        rw [diskStepF_name, hdname]
        exact hn
      simp [Function.comp, hdn, hdname, hnotin, List.contains_cons]
    · have hne : ¬(d.name = n) := by simpa using hdn
      by_cases hct : d.name ∈ tl <;>
        simp [Function.comp, hdn, hne, hct, List.contains_cons]

/-- Helper: a whole `clear_partitions` run works disk by disk: each disk
undergoes the partition filter, empty-extended removal, and its disk loop
iteration. -/
theorem clear_partitions_closed (cfg : StorageDiscoveryConfig) (s : State)
    (hnd : ((treeOf s).devices.map (fun d => d.name)).Nodup) :
    clear_partitions cfg s = stateMap (clearDiskF cfg) s := by
  have hnd1 : ((treeOf (stateMap (partFilterF cfg) s)).devices.map
      (fun d => d.name)).Nodup := by
    refine stateMap_names_nodup s _ (fun d => rfl) ?_ hnd
    intro d
    exact (List.filter_sublist _).map _
  have hnd2 : ((treeOf (stateMap removeEmptyExtF
      (stateMap (partFilterF cfg) s))).devices.map (fun d => d.name)).Nodup := by
    refine stateMap_names_nodup _ _ (fun d => rfl) ?_ hnd1
    intro d
    exact (List.filter_sublist _).map _
  unfold clear_partitions
  dsimp only
  rw [partition_pass_closed cfg s hnd, remove_empty_ext_closed,
    disk_pass_closed cfg _ _ hnd2 (disk_names_nodup _ hnd2)]
  unfold stateMap
  congr 1
  rw [List.map_map, List.map_map]
  apply List.map_congr_left
  intro d hd
  have hmem2 : removeEmptyExtF (partFilterF cfg d) ∈
      (s.disks.map (partFilterF cfg)).map removeEmptyExtF :=
    List.mem_map_of_mem _ (List.mem_map_of_mem _ hd)
  have hcont : (((s.disks.map (partFilterF cfg)).map removeEmptyExtF).map
      (fun d => d.name)).contains (removeEmptyExtF (partFilterF cfg d)).name = true :=
    List.elem_eq_true_of_mem (List.mem_map_of_mem _ hmem2)
  simp only [Function.comp]
  rw [show clearDiskF cfg d = diskStepF cfg (removeEmptyExtF (partFilterF cfg d))
    from rfl]
  rw [if_pos ?_]
  show (((s.disks.map (partFilterF cfg)).map removeEmptyExtF).map
      (fun d => d.name)).contains (removeEmptyExtF (partFilterF cfg d)).name = true
  exact hcont

/-- Helper: the disk view is never a partition. -/
theorem Disk.toDevice_is_partition (d : Disk) : d.toDevice.is_partition = false := rfl

/-- Helper: the disk view is a disk. -/
theorem Disk.toDevice_is_disk (d : Disk) : d.toDevice.is_disk = true := rfl

/-- Helper: the disk view keeps the format. -/
theorem Disk.toDevice_fmt (d : Disk) : d.toDevice.fmt = d.fmt := rfl

/-- Helper: the disk view keeps the name. -/
theorem Disk.toDevice_name (d : Disk) : d.toDevice.name = d.name := rfl

/-- Helper: the disk view keeps the protection flag. -/
theorem Disk.toDevice_protected (d : Disk) : d.toDevice.protected_ = d.protected_ := rfl

/-- Helper: the disk view keeps partitionedness. -/
theorem Disk.toDevice_partitioned (d : Disk) : d.toDevice.partitioned = d.partitioned := rfl

/-- Helper: everything the disk-shaped policy run of a cleared disk must
have let through, read off the early-return chain. -/
theorem shouldClearDiskF_true_elim (cfg : StorageDiscoveryConfig) (d : Disk)
    (h : shouldClearDiskF cfg d = true) :
    scope_reject cfg.clear_part_disks d.toDevice = false ∧
    (cfg.clear_non_existent = true ∨ d.fmt.exists_ = true) ∧
    ((cfg.clear_part_type == ClearPartType.NONE ||
        cfg.clear_part_type == ClearPartType.DEFAULT) = true →
      cfg.initialize_disks = true ∧ diskEmpty d = true) ∧
    (d.partitioned && cfg.clear_part_type != ClearPartType.ALL &&
      !diskEmpty d) = false ∧
    d.fmt.hidden = false ∧
    (cfg.clear_part_type = ClearPartType.LINUX →
      (cfg.initialize_disks = true ∧ diskEmpty d = true) ∨
      (d.partitioned = false ∧ d.fmt.linux_native = true)) ∧
    d.protected_ = false ∧ (d.parts.any (fun p => p.protected_)) = false ∧
    (cfg.clear_part_type = ClearPartType.LIST →
      cfg.clear_part_devices.contains d.name = true) := by
  unfold shouldClearDiskF should_clear_core at h
  obtain ⟨hn1, h⟩ := guard_false_elim h
  obtain ⟨hn2, h⟩ := guard_false_elim h
  obtain ⟨hn3, h⟩ := guard_false_elim h
  obtain ⟨hn4, h⟩ := guard_false_elim h
  rw [if_neg (by rw [Disk.toDevice_is_partition]; simp),
    if_pos (Disk.toDevice_is_disk d)] at h
  obtain ⟨hn5, h⟩ := guard_false_elim h
  obtain ⟨hn6, h⟩ := guard_false_elim h
  obtain ⟨hn7, h⟩ := guard_false_elim h
  obtain ⟨hn8, h⟩ := guard_false_elim h
  obtain ⟨hn9, -⟩ := guard_false_elim h
  refine ⟨by simpa using hn1, ?_, ?_, ?_, by simpa using hn6, ?_, ?_, ?_, ?_⟩
  · by_cases hc : cfg.clear_non_existent = true
    · exact Or.inl hc
    · right
      by_contra he
      have hc0 : cfg.clear_non_existent = false := by simpa using hc
      have he0 : d.fmt.exists_ = false := by simpa using he
      exact hn2 (by
        simp [hc0, he0, Disk.toDevice_is_disk, Disk.toDevice_fmt])
  · intro hm
    rw [hm] at hn3 hn4
    constructor
    · by_contra hi
      have hi0 : cfg.initialize_disks = false := by simpa using hi
      exact hn3 (by simp [hi0])
    · by_contra he
      have he0 : diskEmpty d = false := by simpa using he
      exact hn4 (by simp [he0])
  · simpa using hn5
  · intro hl
    have hl' : (cfg.clear_part_type == ClearPartType.LINUX) = true := by simp [hl]
    rw [hl'] at hn7
    cases hb : ((cfg.initialize_disks && diskEmpty d) ||
        (!d.toDevice.partitioned && d.toDevice.fmt.linux_native)) with
    | false => exact absurd (by simp [hb]) hn7
    | true =>
      have h7 : (cfg.initialize_disks = true ∧ diskEmpty d = true) ∨
          (d.toDevice.partitioned = false ∧ d.toDevice.fmt.linux_native = true) := by
        simpa using hb
      rcases h7 with ⟨h1, h2⟩ | ⟨h1, h2⟩
      · exact Or.inl ⟨h1, h2⟩
      · exact Or.inr ⟨h1, h2⟩
  · have h8 : (d.toDevice.protected_ ||
        d.parts.any (fun p => p.protected_)) = false := by simpa using hn8
    exact (Bool.or_eq_false_iff.mp h8).1
  · have h8 : (d.toDevice.protected_ ||
        d.parts.any (fun p => p.protected_)) = false := by simpa using hn8
    exact (Bool.or_eq_false_iff.mp h8).2
  · intro hl
    have hl' : (cfg.clear_part_type == ClearPartType.LIST) = true := by simp [hl]
    rw [hl'] at hn9
    by_contra hc
    have hmem : d.name ∉ cfg.clear_part_devices :=
      fun hm => hc (List.elem_eq_true_of_mem hm)
    exact hn9 (by simp [Disk.toDevice_name, hmem])

/-- Helper: conversely, a disk for which every exclusion of the policy
body fails is cleared. -/
theorem shouldClearDiskF_true_intro (cfg : StorageDiscoveryConfig) (d : Disk)
    (h1 : scope_reject cfg.clear_part_disks d.toDevice = false)
    (h2 : cfg.clear_non_existent = true ∨ d.fmt.exists_ = true)
    (h3 : (cfg.clear_part_type == ClearPartType.NONE ||
        cfg.clear_part_type == ClearPartType.DEFAULT) = true →
      cfg.initialize_disks = true ∧ diskEmpty d = true)
    (h4 : (d.partitioned && cfg.clear_part_type != ClearPartType.ALL &&
      !diskEmpty d) = false)
    (h5 : d.fmt.hidden = false)
    (h6 : cfg.clear_part_type = ClearPartType.LINUX →
      (cfg.initialize_disks = true ∧ diskEmpty d = true) ∨
      (d.partitioned = false ∧ d.fmt.linux_native = true))
    (h7 : d.protected_ = false)
    (h8 : (d.parts.any (fun p => p.protected_)) = false)
    (h9 : cfg.clear_part_type = ClearPartType.LIST →
      cfg.clear_part_devices.contains d.name = true) :
    shouldClearDiskF cfg d = true := by
  have hc2 : (!cfg.clear_non_existent &&
      ((d.toDevice.is_disk && !d.toDevice.fmt.exists_) ||
       (!d.toDevice.is_disk && !d.toDevice.exists_))) = false := by
    rcases h2 with hc | he
    · simp [hc]
    · simp [Disk.toDevice_is_disk, Disk.toDevice_fmt, he]
  have hc3 : ((cfg.clear_part_type == ClearPartType.NONE ||
      cfg.clear_part_type == ClearPartType.DEFAULT) &&
      (!cfg.initialize_disks || !d.toDevice.is_disk)) = false := by
    cases hm : (cfg.clear_part_type == ClearPartType.NONE ||
        cfg.clear_part_type == ClearPartType.DEFAULT)
    · simp
    · simp [Disk.toDevice_is_disk, (h3 hm).1]
  have hc4 : ((cfg.clear_part_type == ClearPartType.NONE ||
      cfg.clear_part_type == ClearPartType.DEFAULT) && !diskEmpty d) = false := by
    cases hm : (cfg.clear_part_type == ClearPartType.NONE ||
        cfg.clear_part_type == ClearPartType.DEFAULT)
    · simp
    · simp [(h3 hm).2]
  have hc5 : (d.toDevice.partitioned &&
      cfg.clear_part_type != ClearPartType.ALL && !diskEmpty d) = false := by
    simpa [Disk.toDevice_partitioned] using h4
  have hc6 : d.toDevice.fmt.hidden = false := by
    simpa [Disk.toDevice_fmt] using h5
  have hc7 : (cfg.clear_part_type == ClearPartType.LINUX &&
      !((cfg.initialize_disks && diskEmpty d) ||
        (!d.toDevice.partitioned && d.toDevice.fmt.linux_native))) = false := by
    cases hm : (cfg.clear_part_type == ClearPartType.LINUX)
    · simp
    · have hl : cfg.clear_part_type = ClearPartType.LINUX := by simpa using hm
      rcases h6 hl with ⟨ha, hb⟩ | ⟨ha, hb⟩
      · simp [ha, hb]
      · simp [Disk.toDevice_partitioned, Disk.toDevice_fmt, ha, hb]
  have hc8 : (d.toDevice.protected_ || d.parts.any (fun p => p.protected_)) = false := by
    simp [Disk.toDevice_protected, h7, h8]
  have hc9 : (cfg.clear_part_type == ClearPartType.LIST &&
      !cfg.clear_part_devices.contains d.toDevice.name) = false := by
    cases hm : (cfg.clear_part_type == ClearPartType.LIST)
    · simp
    · have hl : cfg.clear_part_type = ClearPartType.LIST := by simpa using hm
      simp [Disk.toDevice_name, List.mem_of_elem_eq_true (h9 hl)]
  unfold shouldClearDiskF should_clear_core
  simp only [h1, hc2, hc3, hc4, hc5, hc6, hc7, hc8, hc9]
  simp [Disk.toDevice_is_partition, Disk.toDevice_is_disk]

/-- Helper: a disk that was rejected by the policy and then received a
fresh disklabel by `zerombr` (so its format type was None, hence it was
not hidden) is still rejected with the fresh label in place. -/
theorem shouldClearDiskF_fresh_false (cfg : StorageDiscoveryConfig) (e : Disk)
    (htype : e.fmt.type = none) (hhid : e.fmt.hidden = false)
    (hsc : shouldClearDiskF cfg e = false) :
    shouldClearDiskF cfg { e with fmt := freshLabel } = false := by
  cases hsc2 : shouldClearDiskF cfg { e with fmt := freshLabel } with
  | false => rfl
  | true =>
    exfalso
    obtain ⟨g1, g2, g3, g4, g5, g6, g7, g8, g9⟩ :=
      shouldClearDiskF_true_elim cfg _ hsc2
    have hpart : e.partitioned = false := by simp [Disk.partitioned, htype]
    have hempty : diskEmpty e = true := by simp [diskEmpty, Disk.partitioned, htype]
    have hcne : cfg.clear_non_existent = true := by
      rcases g2 with hc | he
      · exact hc
      · exact absurd he (by simp [freshLabel])
    have hfreshpart : ({ e with fmt := freshLabel } : Disk).partitioned = true := by
      simp [Disk.partitioned, freshLabel]
    apply absurd ?_ (show ¬shouldClearDiskF cfg e = true by simp [hsc])
    apply shouldClearDiskF_true_intro cfg e
    · exact g1
    · exact Or.inl hcne
    · intro hm
      exact ⟨(g3 hm).1, hempty⟩
    · simp [hpart]
    · exact hhid
    · intro hl
      rcases g6 hl with ⟨ha, _⟩ | ⟨hp', _⟩
      · exact Or.inl ⟨ha, hempty⟩
      · rw [hfreshpart] at hp'
        cases hp'
    · exact g7
    · exact g8
    · intro hl
      exact g9 hl

/-- Helper: the whole-run per-disk transformation keeps the name. -/
theorem clearDiskF_name (cfg : StorageDiscoveryConfig) (d : Disk) :
    (clearDiskF cfg d).name = d.name := by
  unfold clearDiskF
  rw [diskStepF_name]
  rfl

/-- Helper: after a run, a surviving partition survived the partition
filter (it belongs to the disk and the policy rejects it). -/
theorem clearDiskF_parts_mem (cfg : StorageDiscoveryConfig) (d : Disk) (p : Part)
    (hp : p ∈ (clearDiskF cfg d).parts) :
    p ∈ d.parts ∧ shouldClearPartF cfg d.name p = false := by
  have h1 : p ∈ (removeEmptyExtF (partFilterF cfg d)).parts :=
    (diskStepF_parts_sublist cfg _).subset hp
  have h2 : p ∈ (partFilterF cfg d).parts := (List.filter_sublist _).subset h1
  have h3 := List.mem_filter.mp h2
  exact ⟨h3.1, by simpa using h3.2⟩

/-- Helper: re-filtering a cleared disk changes nothing. -/
theorem partFilter_after (cfg : StorageDiscoveryConfig) (d : Disk) :
    partFilterF cfg (clearDiskF cfg d) = clearDiskF cfg d := by
  unfold partFilterF
  have hf : (clearDiskF cfg d).parts.filter
      (fun p => !shouldClearPartF cfg (clearDiskF cfg d).name p) =
      (clearDiskF cfg d).parts := by
    apply List.filter_eq_self.mpr
    intro p hp
    have hsc := (clearDiskF_parts_mem cfg d p hp).2
    rw [clearDiskF_name]
    simp [hsc]
  rw [hf]

/-- Helper: the disk loop iteration either empties the partition list or
leaves it alone. -/
theorem diskStepF_parts_cases (cfg : StorageDiscoveryConfig) (d : Disk) :
    (diskStepF cfg d).parts = [] ∨ (diskStepF cfg d).parts = d.parts := by
  unfold diskStepF
  by_cases hsc : shouldClearDiskF cfg d = true <;>
    by_cases hz : (cfg.zero_mbr && d.fmt.type == none) = true <;>
    by_cases hp : d.protected_ = true <;> simp [hsc, hz, hp]

/-- Helper: the disk loop iteration either schedules a fresh label or
leaves the format alone. -/
theorem diskStepF_fmt_cases (cfg : StorageDiscoveryConfig) (d : Disk) :
    (diskStepF cfg d).fmt = freshLabel ∨ (diskStepF cfg d).fmt = d.fmt := by
  unfold diskStepF
  by_cases hsc : shouldClearDiskF cfg d = true <;>
    by_cases hz : (cfg.zero_mbr && d.fmt.type == none) = true <;>
    by_cases hp : d.protected_ = true <;> simp [hsc, hz, hp]

/-- Helper: a disk whose empty extended containers are already gone is
untouched by removing them again. -/
theorem removeEmptyExtF_fixed (x : Disk)
    (hfix : x.parts.filter (fun p =>
      !(p.is_extended && x.parts.all (fun q => !q.is_logical))) = x.parts) :
    removeEmptyExtF x = x := by
  unfold removeEmptyExtF
  rw [hfix]

/-- Helper: removing empty extended containers again after a run changes
nothing. -/
theorem removeExt_after (cfg : StorageDiscoveryConfig) (d : Disk) :
    removeEmptyExtF (clearDiskF cfg d) = clearDiskF cfg d := by
  apply removeEmptyExtF_fixed
  rcases diskStepF_parts_cases cfg (removeEmptyExtF (partFilterF cfg d)) with hX | hX
  · have hP : (clearDiskF cfg d).parts = [] := hX
    rw [hP]
    rfl
  · have hP : (clearDiskF cfg d).parts = (removeEmptyExtF (partFilterF cfg d)).parts := hX
    rw [hP]
    apply List.filter_eq_self.mpr
    intro p hp
    simp only [removeEmptyExtF] at hp
    cases hall : (partFilterF cfg d).parts.all (fun q => !q.is_logical) with
    | true =>
      have hext : p.is_extended = false := by
        have h2 := (List.mem_filter.mp hp).2
        simpa [hall] using h2
      simp [hext]
    | false =>
      have hnall : ¬ ((partFilterF cfg d).parts.all
          (fun q => !q.is_logical) = true) := by simp [hall]
      rw [List.all_eq_true] at hnall
      push_neg at hnall
      obtain ⟨q, hq, hnq⟩ := hnall
      have hlog : q.is_logical = true := by simpa using hnq
      have hqe : q ∈ (removeEmptyExtF (partFilterF cfg d)).parts := by
        simp only [removeEmptyExtF]
        exact List.mem_filter.mpr ⟨hq, by simp [hall]⟩
      have hallE : (removeEmptyExtF (partFilterF cfg d)).parts.all
          (fun q => !q.is_logical) = false := by
        cases hb : (removeEmptyExtF (partFilterF cfg d)).parts.all
            (fun q => !q.is_logical)
        · rfl
        · have hc := List.all_eq_true.mp hb q hqe
          rw [hlog] at hc
          cases hc
      simp [hallE]

/-- Helper: running the disk loop iteration again after a run changes
nothing (the fresh-label case uses the hidden-format invariant). -/
theorem diskStep_after (cfg : StorageDiscoveryConfig) (d : Disk)
    (hh : d.fmt.hidden = true → d.fmt.type ≠ none) :
    diskStepF cfg (clearDiskF cfg d) = clearDiskF cfg d := by
  by_cases hsc : shouldClearDiskF cfg (removeEmptyExtF (partFilterF cfg d)) = true
  · have hcd : clearDiskF cfg d =
        { removeEmptyExtF (partFilterF cfg d) with parts := [], fmt := freshLabel } := by
      unfold clearDiskF
      exact diskStepF_eval_sc cfg _ hsc
    rw [hcd]
    by_cases hsc2 : shouldClearDiskF cfg
        { removeEmptyExtF (partFilterF cfg d) with
            parts := [], fmt := freshLabel } = true
    · exact (diskStepF_eval_sc cfg _ hsc2).trans rfl
    · have hsc2' : shouldClearDiskF cfg
          { removeEmptyExtF (partFilterF cfg d) with
              parts := [], fmt := freshLabel } = false := by simpa using hsc2
      exact diskStepF_eval_none cfg _ hsc2' (by simp [freshLabel])
  · have hsc' : shouldClearDiskF cfg (removeEmptyExtF (partFilterF cfg d)) = false := by
      simpa using hsc
    by_cases hz : (cfg.zero_mbr && d.fmt.type == none) = true
    · by_cases hp : d.protected_ = true
      · have hcd : clearDiskF cfg d = removeEmptyExtF (partFilterF cfg d) := by
          unfold clearDiskF
          exact diskStepF_eval_prot cfg _ hsc' hp
        rw [hcd]
        exact diskStepF_eval_prot cfg _ hsc' hp
      · have hp' : d.protected_ = false := by simpa using hp
        have hcd : clearDiskF cfg d =
            { removeEmptyExtF (partFilterF cfg d) with fmt := freshLabel } := by
          unfold clearDiskF
          exact diskStepF_eval_z cfg _ hsc' hz hp'
        rw [hcd]
        have htype : d.fmt.type = none := by
          have h2 := hz
          simp only [Bool.and_eq_true, beq_iff_eq] at h2
          exact h2.2
        have hhid : d.fmt.hidden = false := by
          cases hb : d.fmt.hidden
          · rfl
          · exact absurd htype (hh hb)
        have hsc2 := shouldClearDiskF_fresh_false cfg
          (removeEmptyExtF (partFilterF cfg d)) htype hhid hsc'
        exact diskStepF_eval_none cfg _ hsc2 (by simp [freshLabel])
    · have hz' : (cfg.zero_mbr && d.fmt.type == none) = false := by simpa using hz
      have hcd : clearDiskF cfg d = removeEmptyExtF (partFilterF cfg d) := by
        unfold clearDiskF
        exact diskStepF_eval_none cfg _ hsc' hz'
      rw [hcd]
      exact diskStepF_eval_none cfg _ hsc' hz'

/-- Helper: the per-disk run is idempotent. -/
theorem clearDiskF_idem (cfg : StorageDiscoveryConfig) (d : Disk)
    (hh : d.fmt.hidden = true → d.fmt.type ≠ none) :
    clearDiskF cfg (clearDiskF cfg d) = clearDiskF cfg d := by
  show diskStepF cfg (removeEmptyExtF (partFilterF cfg (clearDiskF cfg d))) = _
  rw [partFilter_after cfg d, removeExt_after cfg d]
  exact diskStep_after cfg d hh

/-- Helper: with `clear_non_existent` off, a disk whose format does not
exist on disk is never cleared. -/
theorem shouldClearDiskF_nonexistent (cfg : StorageDiscoveryConfig) (d : Disk)
    (hcne : cfg.clear_non_existent = false) (hex : d.fmt.exists_ = false) :
    shouldClearDiskF cfg d = false := by
  cases hb : shouldClearDiskF cfg d
  · rfl
  · have h := (shouldClearDiskF_true_elim cfg d hb).2.1
    rcases h with h | h
    · rw [hcne] at h
      cases h
    · rw [hex] at h
      cases h

/-- Helper: with `clear_non_existent` off, a disk that went through the
run is no longer eligible for clearing. -/
theorem clearDiskF_sc_false (cfg : StorageDiscoveryConfig) (d : Disk)
    (hcne : cfg.clear_non_existent = false) :
    shouldClearDiskF cfg (clearDiskF cfg d) = false := by
  by_cases hsc : shouldClearDiskF cfg (removeEmptyExtF (partFilterF cfg d)) = true
  · have hcd : clearDiskF cfg d =
        { removeEmptyExtF (partFilterF cfg d) with parts := [], fmt := freshLabel } := by
      unfold clearDiskF
      exact diskStepF_eval_sc cfg _ hsc
    rw [hcd]
    exact shouldClearDiskF_nonexistent cfg _ hcne rfl
  · have hsc' : shouldClearDiskF cfg (removeEmptyExtF (partFilterF cfg d)) = false := by
      simpa using hsc
    by_cases hz : (cfg.zero_mbr && d.fmt.type == none) = true
    · by_cases hp : d.protected_ = true
      · have hcd : clearDiskF cfg d = removeEmptyExtF (partFilterF cfg d) := by
          unfold clearDiskF
          exact diskStepF_eval_prot cfg _ hsc' hp
        rw [hcd]
        exact hsc'
      · have hp' : d.protected_ = false := by simpa using hp
        have hcd : clearDiskF cfg d =
            { removeEmptyExtF (partFilterF cfg d) with fmt := freshLabel } := by
          unfold clearDiskF
          exact diskStepF_eval_z cfg _ hsc' hz hp'
        rw [hcd]
        exact shouldClearDiskF_nonexistent cfg _ hcne rfl
    · have hz' : (cfg.zero_mbr && d.fmt.type == none) = false := by simpa using hz
      have hcd : clearDiskF cfg d = removeEmptyExtF (partFilterF cfg d) := by
        unfold clearDiskF
        exact diskStepF_eval_none cfg _ hsc' hz'
      rw [hcd]
      exact hsc'

/-- Helper: the partitions surviving a per-disk run are a sublist of the
original partitions. -/
theorem clearDiskF_parts_sublist (cfg : StorageDiscoveryConfig) (d : Disk) :
    List.Sublist (clearDiskF cfg d).parts d.parts := by
  have h1 := diskStepF_parts_sublist cfg (removeEmptyExtF (partFilterF cfg d))
  have h2 : List.Sublist (removeEmptyExtF (partFilterF cfg d)).parts
      (partFilterF cfg d).parts := List.filter_sublist _
  have h3 : List.Sublist (partFilterF cfg d).parts d.parts := List.filter_sublist _
  exact (h1.trans h2).trans h3

/-- Helper: the per-disk run keeps the fresh label or the original format. -/
theorem clearDiskF_fmt_cases (cfg : StorageDiscoveryConfig) (d : Disk) :
    (clearDiskF cfg d).fmt = freshLabel ∨ (clearDiskF cfg d).fmt = d.fmt := by
  rcases diskStepF_fmt_cases cfg (removeEmptyExtF (partFilterF cfg d)) with hf | hf
  · left
    exact hf
  · right
    exact hf

/-- Helper: the well-formedness invariant survives a full clearing run. -/
theorem WF_clear (cfg : StorageDiscoveryConfig) (s : State) (hwf : WF s) :
    WF (stateMap (clearDiskF cfg) s) := by
  constructor
  · exact stateMap_names_nodup s _ (clearDiskF_name cfg)
      (fun d => (clearDiskF_parts_sublist cfg d).map _) hwf.1
  · intro d' hd' hhid
    simp only [stateMap] at hd'
    obtain ⟨d, hd, rfl⟩ := List.mem_map.mp hd'
    rcases clearDiskF_fmt_cases cfg d with hf | hf
    · rw [hf] at hhid
      exact absurd hhid (by simp [freshLabel])
    · rw [hf] at hhid ⊢
      exact hwf.2 d hd hhid

/-- C6 (amended): running `clear_partitions` twice in succession with no
intervening graph change is a no-op the second time, for every
well-formed state; moreover, when `clear_non_existent` is off, the spec
postcondition holds after one run: no device remains in the graph for
which `should_clear` still returns true. (The unrestricted postcondition
of the claim fails: with `clear_non_existent` on, a disk given a fresh
not-yet-existing disklabel still satisfies `should_clear`, see the
counterexample.) -/
theorem clear_partitions_idempotent (cfg : StorageDiscoveryConfig) (s : State)
    (hwf : WF s) :
    clear_partitions cfg (clear_partitions cfg s) = clear_partitions cfg s ∧
    (cfg.clear_non_existent = false →
      ∀ dev ∈ (treeOf (clear_partitions cfg s)).devices,
        should_clear (treeOf (clear_partitions cfg s)) cfg dev = false) := by
  have hclosed : clear_partitions cfg s = stateMap (clearDiskF cfg) s :=
    clear_partitions_closed cfg s hwf.1
  have hwf' : WF (stateMap (clearDiskF cfg) s) := WF_clear cfg s hwf
  constructor
  · rw [hclosed, clear_partitions_closed cfg _ hwf'.1]
    unfold stateMap
    rw [List.map_map]
    congr 1
    apply List.map_congr_left
    intro d hd
    show clearDiskF cfg (clearDiskF cfg d) = clearDiskF cfg d
    exact clearDiskF_idem cfg d (hwf.2 d hd)
  · intro hcne dev hdev
    rw [hclosed] at hdev ⊢
    simp only [treeOf, stateMap, List.mem_append, List.mem_map,
      List.mem_flatMap] at hdev
    rcases hdev with ⟨d', ⟨d, hd, rfl⟩, rfl⟩ | ⟨d', ⟨d, hd, rfl⟩, hdev⟩
    · rw [should_clear_disk_local (stateMap (clearDiskF cfg) s) cfg
        (clearDiskF cfg d) hwf'.1
        (by simp only [stateMap]; exact List.mem_map_of_mem _ hd)]
      exact clearDiskF_sc_false cfg d hcne
    · obtain ⟨p, hp, rfl⟩ := hdev
      have hmem : clearDiskF cfg d ∈ (stateMap (clearDiskF cfg) s).disks := by
        simp only [stateMap]
        exact List.mem_map_of_mem _ hd
      rw [should_clear_part_local (stateMap (clearDiskF cfg) s) cfg
        (clearDiskF cfg d).name p hwf'.1
        (part_name_not_disk_name _ hwf'.1 _ hmem p hp)]
      rw [clearDiskF_name]
      exact (clearDiskF_parts_mem cfg d p hp).2

/-- Counterexample to the unrestricted C6 postcondition: with
`clear_non_existent` on, after one full run the freshly relabelled disk
is unprotected yet still satisfies `should_clear`. -/
theorem clear_partitions_postcondition_counterexample :
    ∃ dev ∈ (treeOf (clear_partitions cfgCne sCne)).devices,
      dev.protected_ = false ∧
      should_clear (treeOf (clear_partitions cfgCne sCne)) cfgCne dev = true := by
  rw [clear_partitions_closed cfgCne sCne (by decide)]
  decide

/-- Witness for C6 at a concrete well-formed state. -/
theorem clear_partitions_idempotent_witness :
    WF sSda ∧
    (clear_partitions (cfgBase ClearPartType.ALL)
        (clear_partitions (cfgBase ClearPartType.ALL) sSda) =
      clear_partitions (cfgBase ClearPartType.ALL) sSda ∧
    ((cfgBase ClearPartType.ALL).clear_non_existent = false →
      ∀ dev ∈ (treeOf (clear_partitions (cfgBase ClearPartType.ALL) sSda)).devices,
        should_clear (treeOf (clear_partitions (cfgBase ClearPartType.ALL) sSda))
          (cfgBase ClearPartType.ALL) dev = false)) :=
  ⟨⟨by decide, by decide⟩,
    clear_partitions_idempotent (cfgBase ClearPartType.ALL) sSda
      ⟨by decide, by decide⟩⟩

end OSInstall
